import Mathlib

/-!
# cilantro: the estimators and the matrix files

A shallow embedding of three headers of the repository, each followed further
down by the theorems about it:

* `include/cilantro/random_sample_consensus.hpp` (`RandomSampleConsensusBase`),
* `include/cilantro/iterative_closest_point.hpp` (the setters and queries of
  `IterativeClosestPoint`),
* `include/cilantro/io.hpp` (`readEigenMatrixFromFile`, `writeEigenMatrixToFile`).

Conventions of the embedding of `RandomSampleConsensusBase`:

* `size_t` values are natural numbers.  No arithmetic of the estimator can
  wrap: `iteration_count_` is only incremented while it is below `max_iter_`,
  and every index is bounded by the data count.
* `ResidualScalarT` is any type with a decidable `≤`; no order law is assumed.
* The derived `ModelEstimator` class is a record of its three operations; the
  output reference arguments of `estimateModelParameters` and
  `computeResiduals` are return values.
* `std::shuffle` with the generator `rng` is a function on the generator state
  and the vector; the seed drawn from `std::random_device` is an argument of
  every operation that may start a run.
* Reading a vector outside its bounds is the fault `outOfRange`.
-/

namespace cilantro

/-! ## The embedding of `random_sample_consensus.hpp` -/

section defs

variable {P R G : Type} [LE R] [DecidableRel (fun a b : R => a ≤ b)]

/-- Ways in which an embedded operation can fail to produce a state. -/
inductive Fault where
  | outOfRange
  | outOfFuel
  deriving DecidableEq, Repr

/-- Operations the derived estimator class provides to the base class, together
with the shuffle used by the run. -/
structure ModelEstimator (P R G : Type) where
  getDataPointsCount : Nat
  estimateModelParameters : List Nat → P
  computeResiduals : P → List R
  shuffle : G → List Nat → List Nat × G

/-- Data members of `RandomSampleConsensusBase`. -/
structure RandomSampleConsensusBase (P R : Type) where
  sample_size_ : Nat
  inlier_count_thresh_ : Nat
  max_iter_ : Nat
  inlier_dist_thresh_ : R
  re_estimate_ : Bool
  iteration_count_ : Nat
  model_params_ : P
  model_residuals_ : List R
  model_inliers_ : List Nat
  deriving DecidableEq, Repr

/-- One performed trial of the loop, recorded for reasoning only: the number of
shuffles done so far, the permutation and the offset the sample was cut from,
the sample, and what the model returned for it. -/
structure Trial (P R : Type) where
  epoch : Nat
  perm : List Nat
  start : Nat
  sample : List Nat
  params : P
  residuals : List R
  inliers : List Nat
  deriving DecidableEq, Repr

/-- Local variables of `estimate_model_` while the trial loop runs: the object,
`perm`, the offset of `sample_start_it` in `perm`, `rng`, and the record of
shuffles and trials performed so far. -/
structure LoopState (P R G : Type) where
  self : RandomSampleConsensusBase P R
  perm : List Nat
  sample_start : Nat
  rng : G
  shuffles : Nat
  trace : List (Trial P R)

/-- The constructor; `p0` is the default-constructed `model_params_`. -/
def RandomSampleConsensusBase.new (p0 : P) (sample_size inlier_count_thresh max_iter : Nat)
    (inlier_dist_thresh : R) (re_estimate : Bool) : RandomSampleConsensusBase P R :=
  { sample_size_ := sample_size
    inlier_count_thresh_ := inlier_count_thresh
    max_iter_ := max_iter
    inlier_dist_thresh_ := inlier_dist_thresh
    re_estimate_ := re_estimate
    iteration_count_ := 0
    model_params_ := p0
    model_residuals_ := []
    model_inliers_ := [] }

def getSampleSize (s : RandomSampleConsensusBase P R) : Nat := s.sample_size_

def setSampleSize (s : RandomSampleConsensusBase P R) (sample_size : Nat) :
    RandomSampleConsensusBase P R :=
  { s with iteration_count_ := 0, sample_size_ := sample_size }

def getTargetInlierCount (s : RandomSampleConsensusBase P R) : Nat := s.inlier_count_thresh_

def setTargetInlierCount (s : RandomSampleConsensusBase P R) (inlier_count_thres : Nat) :
    RandomSampleConsensusBase P R :=
  { s with iteration_count_ := 0, inlier_count_thresh_ := inlier_count_thres }

def getMaxNumberOfIterations (s : RandomSampleConsensusBase P R) : Nat := s.max_iter_

def setMaxNumberOfIterations (s : RandomSampleConsensusBase P R) (max_iter : Nat) :
    RandomSampleConsensusBase P R :=
  { s with iteration_count_ := 0, max_iter_ := max_iter }

def getMaxInlierResidual (s : RandomSampleConsensusBase P R) : R := s.inlier_dist_thresh_

def setMaxInlierResidual (s : RandomSampleConsensusBase P R) (inlier_dist_thresh : R) :
    RandomSampleConsensusBase P R :=
  { s with iteration_count_ := 0, inlier_dist_thresh_ := inlier_dist_thresh }

def getReEstimationStep (s : RandomSampleConsensusBase P R) : Bool := s.re_estimate_

def setReEstimationStep (s : RandomSampleConsensusBase P R) (re_estimate : Bool) :
    RandomSampleConsensusBase P R :=
  { s with iteration_count_ := 0, re_estimate_ := re_estimate }

def targetInlierCountAchieved (s : RandomSampleConsensusBase P R) : Bool :=
  decide (s.iteration_count_ > 0) && decide (s.model_inliers_.length ≥ s.inlier_count_thresh_)

def getPerformedIterationsCount (s : RandomSampleConsensusBase P R) : Nat := s.iteration_count_

def getNumberOfInliers (s : RandomSampleConsensusBase P R) : Nat := s.model_inliers_.length

/-- The scan `for (i = 0; i < num_points; i++) if (residuals[i] <= thresh) inliers[k++] = i`
followed by `resize(k)`: `m` iterations remain, `i` is the loop index and `acc`
holds the `k` entries written so far. -/
def inlier_loop (residuals : List R) (thresh : R) : Nat → Nat → List Nat → Except Fault (List Nat)
  | 0, _, acc => .ok acc
  | m + 1, i, acc =>
    match residuals[i]? with
    | none => .error .outOfRange
    | some r => inlier_loop residuals thresh m (i + 1) (if r ≤ thresh then acc ++ [i] else acc)

/-- The inlier scan over all `num_points` data points. -/
def find_inliers (residuals : List R) (thresh : R) (num_points : Nat) : Except Fault (List Nat) :=
  inlier_loop residuals thresh num_points 0 []

/-- One pass through the body of `while (iteration_count_ < max_iter_)`.  The
flag is `true` when the body ends in `break`. -/
def trial_step (M : ModelEstimator P R G) (st : LoopState P R G) :
    Except Fault (LoopState P R G × Bool) :=
  -- Pick a random sample
  let reshuffle : Bool := decide (st.perm.length - st.sample_start < st.self.sample_size_)
  let perm := if reshuffle then (M.shuffle st.rng st.perm).1 else st.perm
  let rng := if reshuffle then (M.shuffle st.rng st.perm).2 else st.rng
  let start := if reshuffle then 0 else st.sample_start
  let shuffles := if reshuffle then st.shuffles + 1 else st.shuffles
  if start + st.self.sample_size_ ≤ perm.length then
    let sample_ind := (perm.drop start).take st.self.sample_size_
    -- Fit model to sample and get its inliers
    let model_params_tmp := M.estimateModelParameters sample_ind
    let model_residuals_tmp := M.computeResiduals model_params_tmp
    match find_inliers model_residuals_tmp st.self.inlier_dist_thresh_ M.getDataPointsCount with
    | .error e => .error e
    | .ok model_inliers_tmp =>
      let self1 := { st.self with iteration_count_ := st.self.iteration_count_ + 1 }
      let trial : Trial P R :=
        { epoch := shuffles, perm := perm, start := start, sample := sample_ind
          params := model_params_tmp, residuals := model_residuals_tmp
          inliers := model_inliers_tmp }
      let st1 : LoopState P R G :=
        { self := self1, perm := perm, sample_start := start + st.self.sample_size_
          rng := rng, shuffles := shuffles, trace := st.trace ++ [trial] }
      if model_inliers_tmp.length < self1.sample_size_ then .ok (st1, false)
      else
        -- Update best found
        let self2 :=
          if model_inliers_tmp.length > self1.model_inliers_.length then
            { self1 with
              model_params_ := model_params_tmp
              model_residuals_ := model_residuals_tmp
              model_inliers_ := model_inliers_tmp }
          else self1
        -- Check if target inlier count was reached
        .ok ({ st1 with self := self2 },
          decide (self2.model_inliers_.length ≥ self2.inlier_count_thresh_))
  else .error .outOfRange

/-- The loop `while (iteration_count_ < max_iter_) { ... }`, with a bound on the
number of passes. -/
def trial_loop (M : ModelEstimator P R G) : Nat → LoopState P R G → Except Fault (LoopState P R G)
  | 0, st => if st.self.iteration_count_ < st.self.max_iter_ then .error .outOfFuel else .ok st
  | fuel + 1, st =>
    if st.self.iteration_count_ < st.self.max_iter_ then
      match trial_step M st with
      | .error e => .error e
      | .ok (st1, true) => .ok st1
      | .ok (st1, false) => trial_loop M fuel st1
    else .ok st

/-- Lines 104-117 of `estimate_model_`: the state in which the trial loop is
entered, after clamping, the initial shuffle and the reset of the counter.
`seed` is the generator state after `rng(rd())`. -/
def loop_entry (M : ModelEstimator P R G) (seed : G) (s : RandomSampleConsensusBase P R) :
    LoopState P R G :=
  let num_points := M.getDataPointsCount
  let s1 := if num_points < s.sample_size_ then { s with sample_size_ := num_points } else s
  let s2 :=
    if s1.inlier_count_thresh_ > num_points then { s1 with inlier_count_thresh_ := num_points }
    else s1
  -- Initialize random permutation
  let shuffled := M.shuffle seed (List.range num_points)
  { self := { s2 with iteration_count_ := 0 }
    perm := shuffled.1, sample_start := 0, rng := shuffled.2, shuffles := 1, trace := [] }

/-- Lines 102-164 of `estimate_model_`: everything up to the exit of the trial
loop.  The loop is given `max_iter_` passes. -/
def trial_phase (M : ModelEstimator P R G) (seed : G) (s : RandomSampleConsensusBase P R) :
    Except Fault (LoopState P R G) :=
  trial_loop M (loop_entry M seed s).self.max_iter_ (loop_entry M seed s)

/-- Lines 166-176 of `estimate_model_`: the final re-estimation. -/
def re_estimate_step (M : ModelEstimator P R G) (s : RandomSampleConsensusBase P R) :
    Except Fault (RandomSampleConsensusBase P R) :=
  if s.re_estimate_ then
    let model_params := M.estimateModelParameters s.model_inliers_
    let model_residuals := M.computeResiduals model_params
    match find_inliers model_residuals s.inlier_dist_thresh_ M.getDataPointsCount with
    | .error e => .error e
    | .ok model_inliers =>
      .ok { s with
            model_params_ := model_params
            model_residuals_ := model_residuals
            model_inliers_ := model_inliers }
  else .ok s

/-- The private member `estimate_model_`. -/
def estimate_model_ (M : ModelEstimator P R G) (seed : G) (s : RandomSampleConsensusBase P R) :
    Except Fault (RandomSampleConsensusBase P R) :=
  match trial_phase M seed s with
  | .error e => .error e
  | .ok st => re_estimate_step M st.self

/-- The guard `if (iteration_count_ == 0) estimate_model_();` shared by the result accessors. -/
def ensure_estimated (M : ModelEstimator P R G) (seed : G) (s : RandomSampleConsensusBase P R) :
    Except Fault (RandomSampleConsensusBase P R) :=
  if s.iteration_count_ = 0 then estimate_model_ M seed s else .ok s

def getEstimationResults (M : ModelEstimator P R G) (seed : G)
    (s : RandomSampleConsensusBase P R) :
    Except Fault ((P × List R × List Nat) × RandomSampleConsensusBase P R) :=
  match ensure_estimated M seed s with
  | .error e => .error e
  | .ok s1 => .ok ((s1.model_params_, s1.model_residuals_, s1.model_inliers_), s1)

def getModelParameters (M : ModelEstimator P R G) (seed : G)
    (s : RandomSampleConsensusBase P R) : Except Fault (P × RandomSampleConsensusBase P R) :=
  match ensure_estimated M seed s with
  | .error e => .error e
  | .ok s1 => .ok (s1.model_params_, s1)

def getModelResiduals (M : ModelEstimator P R G) (seed : G)
    (s : RandomSampleConsensusBase P R) : Except Fault (List R × RandomSampleConsensusBase P R) :=
  match ensure_estimated M seed s with
  | .error e => .error e
  | .ok s1 => .ok (s1.model_residuals_, s1)

def getModelInliers (M : ModelEstimator P R G) (seed : G)
    (s : RandomSampleConsensusBase P R) : Except Fault (List Nat × RandomSampleConsensusBase P R) :=
  match ensure_estimated M seed s with
  | .error e => .error e
  | .ok s1 => .ok (s1.model_inliers_, s1)

/-- A small model on two data points: the parameter is the size of the sample
it was fitted to, both residuals equal the parameter, and the shuffle leaves
the vector as it is. -/
def sizeModel : ModelEstimator Nat Nat Unit :=
  { getDataPointsCount := 2
    estimateModelParameters := fun sample => sample.length
    computeResiduals := fun p => [p, p]
    shuffle := fun g l => (l, g) }

/-- The predicate `residuals[i] <= thresh` of the inlier scan, read at an index
of the residual vector. -/
def is_inlier (residuals : List R) (thresh : R) (i : Nat) : Bool :=
  match residuals[i]? with
  | some r => decide (r ≤ thresh)
  | none => false

/-- The indices below `n` whose residual is at most the threshold, in increasing order. -/
def inlier_indices (residuals : List R) (thresh : R) (n : Nat) : List Nat :=
  (List.range n).filter (is_inlier residuals thresh)

/-- `computeResiduals` returns at least one residual per data point. -/
def ModelEstimator.CoversData (M : ModelEstimator P R G) : Prop :=
  ∀ p, M.getDataPointsCount ≤ (M.computeResiduals p).length

/-- `computeResiduals` returns exactly one residual per data point. -/
def ModelEstimator.ResidualPerPoint (M : ModelEstimator P R G) : Prop :=
  ∀ p, (M.computeResiduals p).length = M.getDataPointsCount

/-- The shuffle does not change the size of the vector. -/
def ModelEstimator.ShuffleKeepsLength (M : ModelEstimator P R G) : Prop :=
  ∀ g l, (M.shuffle g l).1.length = l.length

/-- The shuffle returns a permutation of the vector it is given. -/
def ModelEstimator.ShufflePermutes (M : ModelEstimator P R G) : Prop :=
  ∀ g l, (M.shuffle g l).1.Perm l

/-- The iterator `sample_start_it` is inside `perm`, which has one entry per
data point, and the sample size has been clamped. -/
structure LoopState.InBounds (M : ModelEstimator P R G) (st : LoopState P R G) : Prop where
  perm_length : st.perm.length = M.getDataPointsCount
  start_le : st.sample_start ≤ M.getDataPointsCount
  size_le : st.self.sample_size_ ≤ M.getDataPointsCount

/-- The largest inlier count among the trials of `trace` that have at least
`size` inliers, and 0 when there is none. -/
def best_count (size : Nat) (trace : List (Trial P R)) : Nat :=
  ((trace.filter (fun t => decide (size ≤ t.inliers.length))).map
    (fun t => t.inliers.length)).foldr max 0

/-- The earliest trial of `trace` with exactly `count` inliers. -/
def earliest_with (count : Nat) (trace : List (Trial P R)) : Option (Trial P R) :=
  trace.find? (fun t => decide (t.inliers.length = count))

/-- How the trial `b` follows the trial `a` when samples have `size` entries and
there are `n` data points: when fewer than `size` entries remain behind the
block of `a`, a reshuffle happened and `b` starts at the beginning; otherwise
`b` is cut from the same permutation right behind the block of `a`. -/
def Trial.FollowsBlock (n size : Nat) (a b : Trial P R) : Prop :=
  (n - (a.start + size) < size → b.epoch = a.epoch + 1 ∧ b.start = 0) ∧
  (¬ n - (a.start + size) < size →
    b.epoch = a.epoch ∧ b.start = a.start + size ∧ b.perm = a.perm)

/-- The trial holds what the model returns for its sample under the threshold `thresh`. -/
def Trial.Genuine (M : ModelEstimator P R G) (thresh : R) (t : Trial P R) : Prop :=
  t.params = M.estimateModelParameters t.sample ∧
  t.residuals = M.computeResiduals t.params ∧
  t.inliers = inlier_indices t.residuals thresh M.getDataPointsCount

/-- The object after a pass that recorded the trial `t`: the counter is
incremented, and the best-so-far is replaced by the trial's result when the
trial has at least `sample_size_` inliers and strictly more than the best-so-far. -/
def after_trial (s : RandomSampleConsensusBase P R) (t : Trial P R) :
    RandomSampleConsensusBase P R :=
  if s.sample_size_ ≤ t.inliers.length ∧ s.model_inliers_.length < t.inliers.length then
    { s with
      iteration_count_ := s.iteration_count_ + 1
      model_params_ := t.params
      model_residuals_ := t.residuals
      model_inliers_ := t.inliers }
  else { s with iteration_count_ := s.iteration_count_ + 1 }

/-- Everything a successful pass `trial_step M st = .ok (st1, b)` that recorded
the trial `t` establishes. -/
structure StepFacts (M : ModelEstimator P R G) (st : LoopState P R G) (t : Trial P R)
    (st1 : LoopState P R G) (b : Bool) : Prop where
  trace_eq : st1.trace = st.trace ++ [t]
  self_eq : st1.self = after_trial st.self t
  perm_eq : st1.perm = t.perm
  start_eq : st1.sample_start = t.start + st.self.sample_size_
  shuffles_eq : st1.shuffles = t.epoch
  reshuffled : M.getDataPointsCount - st.sample_start < st.self.sample_size_ →
    t.perm = (M.shuffle st.rng st.perm).1 ∧ t.start = 0 ∧ t.epoch = st.shuffles + 1
  kept : ¬ M.getDataPointsCount - st.sample_start < st.self.sample_size_ →
    t.perm = st.perm ∧ t.start = st.sample_start ∧ t.epoch = st.shuffles
  block_le : t.start + st.self.sample_size_ ≤ M.getDataPointsCount
  sample_eq : t.sample = (t.perm.drop t.start).take st.self.sample_size_
  params_eq : t.params = M.estimateModelParameters t.sample
  residuals_eq : t.residuals = M.computeResiduals t.params
  inliers_eq : t.inliers =
    inlier_indices t.residuals st.self.inlier_dist_thresh_ M.getDataPointsCount
  break_iff : b = true ↔ (st.self.sample_size_ ≤ t.inliers.length ∧
    st1.self.inlier_count_thresh_ ≤ st1.self.model_inliers_.length)
  inBounds : st1.InBounds M

/-- The record of the trial whose sample is cut from `perm` at offset `start`. -/
def trial_record (M : ModelEstimator P R G) (s : RandomSampleConsensusBase P R)
    (epoch : Nat) (perm : List Nat) (start : Nat) : Trial P R :=
  { epoch := epoch, perm := perm, start := start
    sample := (perm.drop start).take s.sample_size_
    params := M.estimateModelParameters ((perm.drop start).take s.sample_size_)
    residuals := M.computeResiduals
      (M.estimateModelParameters ((perm.drop start).take s.sample_size_))
    inliers := inlier_indices (M.computeResiduals
      (M.estimateModelParameters ((perm.drop start).take s.sample_size_)))
      s.inlier_dist_thresh_ M.getDataPointsCount }

/-- The trial a pass started in `st` records. -/
def drawn_trial (M : ModelEstimator P R G) (st : LoopState P R G) : Trial P R :=
  if M.getDataPointsCount - st.sample_start < st.self.sample_size_ then
    trial_record M st.self (st.shuffles + 1) (M.shuffle st.rng st.perm).1 0
  else trial_record M st.self st.shuffles st.perm st.sample_start

/-- The loop state and the `break` flag a successful pass started in `st` ends with. -/
def step_outcome (M : ModelEstimator P R G) (st : LoopState P R G) : LoopState P R G × Bool :=
  ({ self := after_trial st.self (drawn_trial M st)
     perm := (drawn_trial M st).perm
     sample_start := (drawn_trial M st).start + st.self.sample_size_
     rng := if M.getDataPointsCount - st.sample_start < st.self.sample_size_ then
       (M.shuffle st.rng st.perm).2 else st.rng
     shuffles := (drawn_trial M st).epoch
     trace := st.trace ++ [drawn_trial M st] },
   decide (st.self.sample_size_ ≤ (drawn_trial M st).inliers.length ∧
     (after_trial st.self (drawn_trial M st)).inlier_count_thresh_
       ≤ (after_trial st.self (drawn_trial M st)).model_inliers_.length))

/-- What a pass leaves of the configuration, and the trial count. -/
def LoopState.Follows (st0 st : LoopState P R G) : Prop :=
  st.self.sample_size_ = st0.self.sample_size_ ∧
  st.self.inlier_count_thresh_ = st0.self.inlier_count_thresh_ ∧
  st.self.max_iter_ = st0.self.max_iter_ ∧
  st.self.inlier_dist_thresh_ = st0.self.inlier_dist_thresh_ ∧
  st.self.re_estimate_ = st0.self.re_estimate_ ∧
  st.self.iteration_count_ = st0.self.iteration_count_ + (st.trace.length - st0.trace.length) ∧
  st0.trace.length ≤ st.trace.length ∧
  (st0.self.iteration_count_ ≤ st0.self.max_iter_ → st.self.iteration_count_ ≤ st.self.max_iter_)

/-- The object `estimate_model_` returns when the trial loop exits with `st`. -/
def reported (M : ModelEstimator P R G) (s : RandomSampleConsensusBase P R) :
    RandomSampleConsensusBase P R :=
  if s.re_estimate_ then
    { s with
      model_params_ := M.estimateModelParameters s.model_inliers_
      model_residuals_ := M.computeResiduals (M.estimateModelParameters s.model_inliers_)
      model_inliers_ := inlier_indices
        (M.computeResiduals (M.estimateModelParameters s.model_inliers_))
        s.inlier_dist_thresh_ M.getDataPointsCount }
  else s

/-- The best-so-far of the loop state is the earliest recorded trial with the
largest inlier count among those with at least `size` inliers. -/
def LoopState.BestIsEarliest (size : Nat) (st : LoopState P R G) : Prop :=
  st.self.sample_size_ = size ∧
  st.self.model_inliers_.length = best_count size st.trace ∧
  (0 < best_count size st.trace →
    ∃ t, earliest_with (best_count size st.trace) st.trace = some t ∧
      t.params = st.self.model_params_ ∧ t.residuals = st.self.model_residuals_ ∧
      t.inliers = st.self.model_inliers_)

/-- Every recorded trial is genuine for the threshold of the loop state. -/
def LoopState.TraceGenuine (M : ModelEstimator P R G) (st : LoopState P R G) : Prop :=
  ∀ t ∈ st.trace, t.Genuine M st.self.inlier_dist_thresh_

/-- Every recorded sample is the block of `size` entries of its permutation
that starts at its offset, and the block lies inside the permutation. -/
def LoopState.SamplesAreBlocks (M : ModelEstimator P R G) (size : Nat)
    (st : LoopState P R G) : Prop :=
  st.self.sample_size_ = size ∧
  ∀ t ∈ st.trace, t.perm.length = M.getDataPointsCount ∧
    t.start + size ≤ M.getDataPointsCount ∧ t.sample = (t.perm.drop t.start).take size

/-- While no recorded trial has `size` inliers the best-so-far is the one the
loop was entered with. -/
def LoopState.UntouchedWhileNoneQualifies (size : Nat) (s0 : RandomSampleConsensusBase P R)
    (st : LoopState P R G) : Prop :=
  st.self.sample_size_ = size ∧
  ((∀ t ∈ st.trace, t.inliers.length < size) →
    st.self.model_params_ = s0.model_params_ ∧ st.self.model_residuals_ = s0.model_residuals_ ∧
    st.self.model_inliers_ = s0.model_inliers_)

/-- The permutation in use and the permutation of every recorded trial are
permutations of `0..n-1`, and every recorded trial was fitted to its sample. -/
def LoopState.PermsOk (M : ModelEstimator P R G) (st : LoopState P R G) : Prop :=
  st.perm.Perm (List.range M.getDataPointsCount) ∧
  ∀ t ∈ st.trace, t.perm.Perm (List.range M.getDataPointsCount) ∧
    t.params = M.estimateModelParameters t.sample

/-- Trials recorded since the last shuffle were cut from the permutation in use,
in front of the current offset, and two samples of the same epoch are disjoint. -/
def LoopState.EpochsOk (size : Nat) (st : LoopState P R G) : Prop :=
  st.self.sample_size_ = size ∧
  (∀ t ∈ st.trace, t.epoch ≤ st.shuffles) ∧
  (∀ t ∈ st.trace, t.epoch = st.shuffles →
    t.perm = st.perm ∧ t.start + size ≤ st.sample_start ∧
    t.sample = (t.perm.drop t.start).take size) ∧
  st.trace.Pairwise (fun a b => a.epoch = b.epoch → a.sample.Disjoint b.sample)

/-- The first recorded trial starts at the beginning of the first permutation,
and each later one follows its predecessor as `Trial.FollowsBlock` says. -/
def LoopState.ChainOk (M : ModelEstimator P R G) (size : Nat) (st : LoopState P R G) : Prop :=
  st.self.sample_size_ = size ∧
  (st.trace = [] → st.shuffles = 1 ∧ st.sample_start = 0) ∧
  (∀ t, st.trace.head? = some t → t.epoch = 1 ∧ t.start = 0) ∧
  (∀ t, st.trace.getLast? = some t →
    t.epoch = st.shuffles ∧ t.start + size = st.sample_start ∧ t.perm = st.perm) ∧
  st.trace.Chain' (Trial.FollowsBlock M.getDataPointsCount size)

/-- A model on two data points whose fit to the empty sample has residuals
`[0, 0]` and whose fit to any other sample has residuals `[5, 5]`. -/
def emptyFitModel : ModelEstimator Nat Nat Unit :=
  { getDataPointsCount := 2
    estimateModelParameters := fun sample => sample.length
    computeResiduals := fun p => if p = 0 then [0, 0] else [5, 5]
    shuffle := fun g l => (l, g) }

/-- A model on five data points whose shuffle reverses the vector; the
parameter is the sum of the sample and every residual equals the parameter. -/
def reverseModel : ModelEstimator Nat Nat Unit :=
  { getDataPointsCount := 5
    estimateModelParameters := fun sample => sample.sum
    computeResiduals := fun p => [p, p, p, p, p]
    shuffle := fun g l => (l.reverse, g) }

/-- The best-so-far inlier count after the trials of `trace`, for a loop that is
entered with a best-so-far of `init` inliers and the sample size `size`. -/
def best_after (init size : Nat) (trace : List (Trial P R)) : Nat :=
  max init (best_count size trace)

/-- No recorded trial has so far called for the early stop: after every recorded
trial with at least `size` inliers the best-so-far was below `target`; and when
the loop was entered with an empty best-so-far and `target` is positive, the
best-so-far was below `target` after every recorded trial. -/
def LoopState.NoStopMissed (init size target : Nat) (st : LoopState P R G) : Prop :=
  st.self.sample_size_ = size ∧ st.self.inlier_count_thresh_ = target ∧
  st.self.model_inliers_.length = best_after init size st.trace ∧
  (∀ k t, st.trace[k]? = some t → size ≤ t.inliers.length →
    best_after init size (st.trace.take (k + 1)) < target) ∧
  (init = 0 → 1 ≤ target →
    ∀ k, k ≤ st.trace.length → best_after init size (st.trace.take k) < target)

/-- The loop has stopped as soon as a trial with at least `size` inliers left
the best-so-far at or above `target`: such a trial is the last recorded one. -/
def LoopState.StoppedAtTarget (init size target : Nat) (st : LoopState P R G) : Prop :=
  st.self.model_inliers_.length = best_after init size st.trace ∧
  (∀ k t, st.trace[k]? = some t → size ≤ t.inliers.length →
    target ≤ best_after init size (st.trace.take (k + 1)) → st.trace.length = k + 1) ∧
  (init = 0 → 1 ≤ target →
    ∀ k, k < st.trace.length → best_after init size (st.trace.take k) < target)

/-- The cached inlier sequence is a subsequence of `0, 1, ..., n-1`. -/
def InliersInRange (n : Nat) (s : RandomSampleConsensusBase P R) : Prop :=
  s.model_inliers_.Sublist (List.range n)

/-- The object states a program can produce for the model `M`: construction,
then setter calls and result accessor calls in any order. -/
inductive Reachable (M : ModelEstimator P R G) : RandomSampleConsensusBase P R → Prop
  | constructed (p0 : P) (sample_size inlier_count_thresh max_iter : Nat)
      (inlier_dist_thresh : R) (re_estimate : Bool) :
      Reachable M (RandomSampleConsensusBase.new p0 sample_size inlier_count_thresh max_iter
        inlier_dist_thresh re_estimate)
  | sampleSizeSet {s : RandomSampleConsensusBase P R} (v : Nat) :
      Reachable M s → Reachable M (setSampleSize s v)
  | targetInlierCountSet {s : RandomSampleConsensusBase P R} (v : Nat) :
      Reachable M s → Reachable M (setTargetInlierCount s v)
  | maxNumberOfIterationsSet {s : RandomSampleConsensusBase P R} (v : Nat) :
      Reachable M s → Reachable M (setMaxNumberOfIterations s v)
  | maxInlierResidualSet {s : RandomSampleConsensusBase P R} (v : R) :
      Reachable M s → Reachable M (setMaxInlierResidual s v)
  | reEstimationStepSet {s : RandomSampleConsensusBase P R} (v : Bool) :
      Reachable M s → Reachable M (setReEstimationStep s v)
  | accessed {s s1 : RandomSampleConsensusBase P R} (seed : G) :
      Reachable M s → ensure_estimated M seed s = .ok s1 → Reachable M s1

end defs

/-! ## The embedding of `iterative_closest_point.hpp`

`float` is an abstract type `F`: the setters only store and copy such values.
`Eigen::Matrix3f` is `Fin 3 → Fin 3 → F`, `Eigen::Vector3f` is `Fin 3 → F`, a
vector set of dimension `d` is a list of `Fin d → F`, and a pointer to a
`KDTree` of dimension `d` is an optional value of the abstract type `K d`.
The private helpers `correct_correspondences_type_` and
`orthonormalize_rotation_` are declared in the header and defined elsewhere;
they are `const` members, so they are functions of the object and their
argument, collected in `IcpHelpers`. -/

section icp_defs

/-- The nested `enum struct Metric`. -/
inductive IterativeClosestPoint.Metric where
  | POINT_TO_POINT
  | POINT_TO_PLANE
  | COMBINED
  deriving DecidableEq, Repr

/-- The nested `enum struct CorrespondencesType`. -/
inductive IterativeClosestPoint.CorrespondencesType where
  | POINTS
  | NORMALS
  | COLORS
  | POINTS_NORMALS
  | POINTS_COLORS
  | NORMALS_COLORS
  | POINTS_NORMALS_COLORS
  deriving DecidableEq, Repr

/-- Data members of `IterativeClosestPoint`. -/
structure IterativeClosestPoint (F : Type) (K : Nat → Type) where
  dst_points_ : List (Fin 3 → F)
  dst_normals_ : List (Fin 3 → F)
  dst_colors_ : List (Fin 3 → F)
  src_points_ : List (Fin 3 → F)
  src_normals_ : List (Fin 3 → F)
  src_colors_ : List (Fin 3 → F)
  kd_tree_3d_ : Option (K 3)
  kd_tree_6d_ : Option (K 6)
  kd_tree_9d_ : Option (K 9)
  corr_type_ : IterativeClosestPoint.CorrespondencesType
  point_dist_weight_ : F
  normal_dist_weight_ : F
  color_dist_weight_ : F
  metric_ : IterativeClosestPoint.Metric
  point_to_point_weight_ : F
  point_to_plane_weight_ : F
  corr_dist_thres_ : F
  corr_fraction_ : F
  convergence_tol_ : F
  max_iter_ : Nat
  max_estimation_iter_ : Nat
  rot_mat_init_ : Fin 3 → Fin 3 → F
  t_vec_init_ : Fin 3 → F
  has_converged_ : Bool
  iteration_count_ : Nat
  rot_mat_ : Fin 3 → Fin 3 → F
  t_vec_ : Fin 3 → F
  src_points_trans_ : List (Fin 3 → F)
  dst_data_points_6d_ : List (Fin 6 → F)
  dst_data_points_9d_ : List (Fin 9 → F)
  correspondences_ : List (Nat × Nat × F)

/-- The two private `const` helpers whose bodies are not in the header. -/
structure IcpHelpers (F : Type) (K : Nat → Type) where
  correct_correspondences_type_ : IterativeClosestPoint F K →
    IterativeClosestPoint.CorrespondencesType → IterativeClosestPoint.CorrespondencesType
  orthonormalize_rotation_ : IterativeClosestPoint F K →
    (Fin 3 → Fin 3 → F) → (Fin 3 → Fin 3 → F)

namespace IterativeClosestPoint

variable {F : Type} {K : Nat → Type}

/-- Modelled from the spec: the body of the private member `delete_kd_trees_` is
not in the header.  The spec says that the setters that call it "destroy the
now-invalid spatial index (it is rebuilt lazily on next use)": the three index
handles are released and left null, and nothing else changes. -/
def delete_kd_trees_ (s : IterativeClosestPoint F K) : IterativeClosestPoint F K :=
  { s with kd_tree_3d_ := none, kd_tree_6d_ := none, kd_tree_9d_ := none }

def getMetric (s : IterativeClosestPoint F K) : Metric := s.metric_

def setMetric (s : IterativeClosestPoint F K) (metric : Metric) : IterativeClosestPoint F K :=
  if s.dst_normals_.length > 0 ∧ metric ≠ s.metric_ then
    { s with iteration_count_ := 0, metric_ := metric }
  else s

def getPointToPointMetricWeight (s : IterativeClosestPoint F K) : F := s.point_to_point_weight_

def setPointToPointMetricWeight (s : IterativeClosestPoint F K) (point_weight : F) :
    IterativeClosestPoint F K :=
  let s1 := if s.metric_ = Metric.COMBINED then { s with iteration_count_ := 0 } else s
  { s1 with point_to_point_weight_ := point_weight }

def getPointToPlaneMetricWeight (s : IterativeClosestPoint F K) : F := s.point_to_plane_weight_

def setPointToPlaneMetricWeight (s : IterativeClosestPoint F K) (plane_weight : F) :
    IterativeClosestPoint F K :=
  let s1 := if s.metric_ = Metric.COMBINED then { s with iteration_count_ := 0 } else s
  { s1 with point_to_plane_weight_ := plane_weight }

def getCorrespondencesType (s : IterativeClosestPoint F K) : CorrespondencesType := s.corr_type_

def setCorrespondencesType (H : IcpHelpers F K) (s : IterativeClosestPoint F K)
    (corr_type : CorrespondencesType) : IterativeClosestPoint F K :=
  let correct_corr_type := H.correct_correspondences_type_ s corr_type
  if correct_corr_type ≠ s.corr_type_ then
    { delete_kd_trees_ s with iteration_count_ := 0, corr_type_ := correct_corr_type }
  else s

def getCorrespondencePointWeight (s : IterativeClosestPoint F K) : F := s.point_dist_weight_

def setCorrespondencePointWeight (s : IterativeClosestPoint F K) (point_dist_weight : F) :
    IterativeClosestPoint F K :=
  let s1 :=
    if s.corr_type_ = CorrespondencesType.POINTS_NORMALS ∨
        s.corr_type_ = CorrespondencesType.POINTS_COLORS ∨
        s.corr_type_ = CorrespondencesType.POINTS_NORMALS_COLORS then
      { delete_kd_trees_ s with iteration_count_ := 0 }
    else s
  { s1 with point_dist_weight_ := point_dist_weight }

def getCorrespondenceNormalWeight (s : IterativeClosestPoint F K) : F := s.normal_dist_weight_

def setCorrespondenceNormalWeight (s : IterativeClosestPoint F K) (normal_dist_weight : F) :
    IterativeClosestPoint F K :=
  let s1 :=
    if s.corr_type_ = CorrespondencesType.POINTS_NORMALS ∨
        s.corr_type_ = CorrespondencesType.NORMALS_COLORS ∨
        s.corr_type_ = CorrespondencesType.POINTS_NORMALS_COLORS then
      { delete_kd_trees_ s with iteration_count_ := 0 }
    else s
  { s1 with normal_dist_weight_ := normal_dist_weight }

def getCorrespondenceColorWeight (s : IterativeClosestPoint F K) : F := s.color_dist_weight_

def setCorrespondenceColorWeight (s : IterativeClosestPoint F K) (color_dist_weight : F) :
    IterativeClosestPoint F K :=
  let s1 :=
    if s.corr_type_ = CorrespondencesType.POINTS_COLORS ∨
        s.corr_type_ = CorrespondencesType.NORMALS_COLORS ∨
        s.corr_type_ = CorrespondencesType.POINTS_NORMALS_COLORS then
      { delete_kd_trees_ s with iteration_count_ := 0 }
    else s
  { s1 with color_dist_weight_ := color_dist_weight }

def getMaxCorrespondenceDistance (s : IterativeClosestPoint F K) : F := s.corr_dist_thres_

def setMaxCorrespondenceDistance (s : IterativeClosestPoint F K) (max_dist : F) :
    IterativeClosestPoint F K :=
  { s with iteration_count_ := 0, corr_dist_thres_ := max_dist }

def getCorrespondencesFraction (s : IterativeClosestPoint F K) : F := s.corr_fraction_

def setCorrespondencesFraction (s : IterativeClosestPoint F K) (corr_fraction : F) :
    IterativeClosestPoint F K :=
  { s with iteration_count_ := 0, corr_fraction_ := corr_fraction }

def getMaxNumberOfIterations (s : IterativeClosestPoint F K) : Nat := s.max_iter_

def setMaxNumberOfIterations (s : IterativeClosestPoint F K) (max_iter : Nat) :
    IterativeClosestPoint F K :=
  { s with iteration_count_ := 0, max_iter_ := max_iter }

def getMaxNumberOfOptimizationStepIterations (s : IterativeClosestPoint F K) : Nat :=
  s.max_estimation_iter_

def setMaxNumberOfOptimizationStepIterations (s : IterativeClosestPoint F K) (max_iter : Nat) :
    IterativeClosestPoint F K :=
  { s with iteration_count_ := 0, max_estimation_iter_ := max_iter }

def getConvergenceTolerance (s : IterativeClosestPoint F K) : F := s.convergence_tol_

def setConvergenceTolerance (s : IterativeClosestPoint F K) (conv_tol : F) :
    IterativeClosestPoint F K :=
  { s with iteration_count_ := 0, convergence_tol_ := conv_tol }

/-- The two output references `rot_mat_init` and `t_vec_init` are returned as a pair. -/
def getInitialTransformation (s : IterativeClosestPoint F K) :
    (Fin 3 → Fin 3 → F) × (Fin 3 → F) :=
  (s.rot_mat_init_, s.t_vec_init_)

/-- The counter is reset before `orthonormalize_rotation_` is called, so the
helper sees the object with `iteration_count_ = 0`. -/
def setInitialTransformation (H : IcpHelpers F K) (s : IterativeClosestPoint F K)
    (rot_mat : Fin 3 → Fin 3 → F) (t_vec : Fin 3 → F) : IterativeClosestPoint F K :=
  let s1 := { s with iteration_count_ := 0 }
  let s2 := { s1 with rot_mat_init_ := H.orthonormalize_rotation_ s1 rot_mat }
  { s2 with t_vec_init_ := t_vec }

def hasConverged (s : IterativeClosestPoint F K) : Bool :=
  decide (s.iteration_count_ > 0) && s.has_converged_

def getPerformedIterationsCount (s : IterativeClosestPoint F K) : Nat := s.iteration_count_

/-- The channels a correspondence type uses, in the order points, normals, colors. -/
def CorrespondencesType.channels : CorrespondencesType → Bool × Bool × Bool
  | POINTS => (true, false, false)
  | NORMALS => (false, true, false)
  | COLORS => (false, false, true)
  | POINTS_NORMALS => (true, true, false)
  | POINTS_COLORS => (true, false, true)
  | NORMALS_COLORS => (false, true, true)
  | POINTS_NORMALS_COLORS => (true, true, true)

/-- The correspondence type is a multi-channel type: it uses at least two of
points, normals and colors. -/
def CorrespondencesType.multi_channel (c : CorrespondencesType) : Bool :=
  (c.channels.1 && c.channels.2.1) || (c.channels.1 && c.channels.2.2) ||
    (c.channels.2.1 && c.channels.2.2)

end IterativeClosestPoint

end icp_defs

/-! ## The embedding of `io.hpp`

A text file is the list of its characters and a binary file the list of its
bytes (natural numbers below 256).  A matrix is a dynamic-size Eigen matrix:
its dimensions, its coefficient array `data()` in storage order, and the
storage order of its type.  `std::getline`, `std::stringstream::eof` and
`operator>>` follow the C++ standard: `eofbit` is set when an extraction
reaches the end of the stream, and an extraction that meets the end of the
stream while it skips leading whitespace stores nothing.  The tokens of a text
file are taken to be numerals that `operator>>` consumes whole; `parse` gives
their values.  The byte representation of a scalar is given by a
`ScalarLayout`; `Matrix::Index` is a 64-bit two's complement integer stored
with the least significant byte first. -/

section io_defs

variable {S : Type}

/-- Ways in which the embedded readers can fail: integer division by zero, a
read outside a vector, a loop bound of the embedding that is too small, a file
that ends before the bytes asked for, a negative dimension, and a failed
allocation. -/
inductive ReadFault where
  | divisionByZero
  | outOfRange
  | outOfFuel
  | shortRead
  | negativeSize
  | badAlloc
  deriving DecidableEq, Repr

/-- A dynamic-size Eigen matrix. -/
structure EigenMatrix (S : Type) where
  rows : Nat
  cols : Nat
  data : List S
  row_major : Bool
  deriving DecidableEq, Repr

/-- The position of the coefficient `(i, j)` in `data()`. -/
def EigenMatrix.index (m : EigenMatrix S) (i j : Nat) : Nat :=
  if m.row_major then i * m.cols + j else j * m.rows + i

/-- The coefficient `matrix(i, j)`. -/
def EigenMatrix.coeff (m : EigenMatrix S) (i j : Nat) : Option S :=
  m.data[m.index i j]?

/-- The assignment `matrix(i, j) = x`. -/
def EigenMatrix.set_coeff (m : EigenMatrix S) (i j : Nat) (x : S) : EigenMatrix S :=
  { m with data := m.data.set (m.index i j) x }

/-- The call `matrix.resize(rows, cols)` followed by overwriting: the new
coefficient array has `rows * cols` entries, which hold `uninit` until they are
written. -/
def EigenMatrix.resize (m : EigenMatrix S) (rows cols : Nat) (uninit : S) : EigenMatrix S :=
  { m with rows := rows, cols := cols, data := List.replicate (rows * cols) uninit }

/-- The characters `std::isspace` accepts in the "C" locale: space and the
control characters 9 to 13. -/
def is_space (c : Char) : Bool :=
  decide (c.toNat = 32) || (decide (9 ≤ c.toNat) && decide (c.toNat ≤ 13))

/-- A `std::stringstream` over a line: the characters not yet consumed and `eofbit`. -/
structure LineStream where
  rest : List Char
  eofbit : Bool
  deriving DecidableEq, Repr

/-- The extraction `input_line >> d` on a stream whose `eofbit` is clear.  It
skips leading whitespace; at the end of the stream it sets `eofbit` and leaves
`d` as it was; otherwise it consumes the next token and stores its value, and
sets `eofbit` when the token ends the stream. -/
def extract (parse : List Char → S) (st : LineStream) (d : S) : LineStream × S :=
  match st.rest.dropWhile is_space with
  | [] => ({ rest := [], eofbit := true }, d)
  | c :: cs =>
    ({ rest := (c :: cs).dropWhile (fun x => !is_space x)
       eofbit := ((c :: cs).dropWhile (fun x => !is_space x)).isEmpty },
      parse ((c :: cs).takeWhile (fun x => !is_space x)))

/-- The loop `while (!input_line.eof()) { input_line >> d; v.emplace_back(d); }`
with a bound on the number of passes.  It returns `d` and `v`. -/
def read_values (parse : List Char → S) :
    Nat → LineStream → S → List S → Except ReadFault (S × List S)
  | 0, st, d, v => if st.eofbit then .ok (d, v) else .error .outOfFuel
  | fuel + 1, st, d, v =>
    if st.eofbit then .ok (d, v)
    else read_values parse fuel (extract parse st d).1 (extract parse st d).2
      (v ++ [(extract parse st d).2])

/-- The lines `std::getline` returns one after the other until it fails: `cur`
holds the characters of the line being read, if any was extracted. -/
def get_lines : List Char → Option (List Char) → List (List Char)
  | [], none => []
  | [], some line => [line]
  | c :: cs, cur =>
    if c.toNat = 10 then cur.getD [] :: get_lines cs none
    else get_lines cs (some (cur.getD [] ++ [c]))

/-- The loop `while (getline(in, line)) { n_rows++; ... }` over the lines of the
file.  It returns `n_rows`, `d` and `v`. -/
def read_lines (parse : List Char → S) :
    List (List Char) → Nat → S → List S → Except ReadFault (Nat × S × List S)
  | [], n_rows, d, v => .ok (n_rows, d, v)
  | line :: lines, n_rows, d, v =>
    match read_values parse (line.length + 1) { rest := line, eofbit := false } d v with
    | .error e => .error e
    | .ok (d1, v1) => read_lines parse lines (n_rows + 1) d1 v1

/-- The loop `for (size_t j = 0; j < n_cols; j++) matrix(i,j) = v[i * n_cols + j];`
with `m` passes left. -/
def fill_row (v : List S) (n_cols i : Nat) :
    Nat → Nat → EigenMatrix S → Except ReadFault (EigenMatrix S)
  | 0, _, matrix => .ok matrix
  | m + 1, j, matrix =>
    match v[i * n_cols + j]? with
    | none => .error .outOfRange
    | some x => fill_row v n_cols i m (j + 1) (matrix.set_coeff i j x)

/-- The loop `for (size_t i = 0; i < n_rows; i++) { ... }` with `m` passes left. -/
def fill_rows (v : List S) (n_cols : Nat) :
    Nat → Nat → EigenMatrix S → Except ReadFault (EigenMatrix S)
  | 0, _, matrix => .ok matrix
  | m + 1, i, matrix =>
    match fill_row v n_cols i n_cols 0 matrix with
    | .error e => .error e
    | .ok matrix1 => fill_rows v n_cols m (i + 1) matrix1

/-- The text branch of `readEigenMatrixFromFile`.  `d0` is the value the
uninitialized local `d` holds and `uninit` the value a resized matrix holds. -/
def readEigenMatrixFromFile_text (parse : List Char → S) (d0 uninit : S) (file : List Char)
    (matrix : EigenMatrix S) : Except ReadFault (EigenMatrix S) :=
  -- Read file contents into a vector
  match read_lines parse (get_lines file none) 0 d0 [] with
  | .error e => .error e
  | .ok (n_rows, _, v) =>
    -- Construct matrix
    if n_rows = 0 then .error .divisionByZero
    else
      let n_cols := v.length / n_rows
      fill_rows v n_cols n_rows 0 (matrix.resize n_rows n_cols uninit)

/-- The value of a token of decimal digits. -/
def parse_decimal (token : List Char) : Nat :=
  token.foldl (fun acc c => 10 * acc + (c.toNat - 48)) 0

/-- The object representation of a scalar: its size in bytes and the copies
between a scalar and its bytes. -/
structure ScalarLayout (S : Type) where
  width : Nat
  encode : S → List Nat
  decode : List Nat → S

/-- Every scalar has `width` bytes, and copying a scalar to bytes and back gives the scalar. -/
def ScalarLayout.Faithful (L : ScalarLayout S) : Prop :=
  (∀ x, (L.encode x).length = L.width) ∧ ∀ x, L.decode (L.encode x) = x

/-- The `k` bytes of the integer `n`, least significant byte first. -/
def le_bytes : Nat → Nat → List Nat
  | 0, _ => []
  | k + 1, n => n % 256 :: le_bytes k (n / 256)

/-- The integer whose bytes, least significant first, are `bytes`. -/
def le_value : List Nat → Nat
  | [] => 0
  | b :: bytes => b + 256 * le_value bytes

/-- The scalars stored in the first `count * width` bytes of `bytes`. -/
def decode_scalars (L : ScalarLayout S) : Nat → List Nat → List S
  | 0, _ => []
  | count + 1, bytes =>
    L.decode (bytes.take L.width) :: decode_scalars L count (bytes.drop L.width)

/-- The matrix is one that exists in memory under the layout width `width`: its
coefficient array has `rows * cols` entries and the dimensions, their product
and the size of the array in bytes are in the range of the integer types. -/
structure EigenMatrix.WellFormed (width : Nat) (m : EigenMatrix S) : Prop where
  data_length : m.data.length = m.rows * m.cols
  rows_lt : m.rows < 2 ^ 63
  cols_lt : m.cols < 2 ^ 63
  size_lt : m.rows * m.cols < 2 ^ 63
  bytes_lt : m.rows * m.cols * width < 2 ^ 64

/-- The binary branch of `writeEigenMatrixToFile`: the bytes written to the file. -/
def writeEigenMatrixToFile_binary (L : ScalarLayout S) (matrix : EigenMatrix S) : List Nat :=
  le_bytes 8 (matrix.rows % 2 ^ 64) ++ le_bytes 8 (matrix.cols % 2 ^ 64) ++
    (matrix.data.flatMap L.encode).take ((matrix.rows * matrix.cols * L.width) % 2 ^ 64)

/-- The binary branch of `readEigenMatrixFromFile`.  A dimension with the sign
bit set is negative, and `resize` fails to allocate when the number of
coefficients or of bytes is out of range. -/
def readEigenMatrixFromFile_binary (L : ScalarLayout S) (file : List Nat)
    (matrix : EigenMatrix S) : Except ReadFault (EigenMatrix S) :=
  if file.length < 16 then .error .shortRead
  else
    let rows := le_value (file.take 8)
    let cols := le_value ((file.drop 8).take 8)
    if 2 ^ 63 ≤ rows ∨ 2 ^ 63 ≤ cols then .error .negativeSize
    else if 2 ^ 63 ≤ rows * cols ∨ 2 ^ 64 ≤ rows * cols * L.width then .error .badAlloc
    else if (file.drop 16).length < rows * cols * L.width then .error .shortRead
    else
      .ok { matrix with
            rows := rows, cols := cols
            data := decode_scalars L (rows * cols) (file.drop 16) }

/-- The layout of `bool`: one byte, 1 for `true` and 0 for `false`. -/
def boolLayout : ScalarLayout Bool :=
  { width := 1
    encode := fun x => [if x then 1 else 0]
    decode := fun bytes => decide (bytes.headD 0 = 1) }

end io_defs

/-! ## Lemmas and theorems -/

section theorems

variable {P R G : Type} [LE R] [DecidableRel (fun a b : R => a ≤ b)]

/-! ### The inlier scan and one pass of the trial loop -/

theorem inlier_loop_eq (residuals : List R) (thresh : R) :
    ∀ (m i : Nat) (acc : List Nat), i + m ≤ residuals.length →
      inlier_loop residuals thresh m i acc
        = .ok (acc ++ (List.range' i m).filter (is_inlier residuals thresh)) := by
  intro m
  induction m with
  | zero => intro i acc _; simp [inlier_loop]
  | succ m ih =>
    intro i acc h
    have hi : i < residuals.length := by omega
    have hget : residuals[i]? = some residuals[i] := List.getElem?_eq_getElem hi
    rw [inlier_loop, hget]
    simp only
    rw [ih (i + 1) _ (by omega), List.range'_succ, List.filter_cons]
    by_cases hr : residuals[i] ≤ thresh
    · simp [is_inlier, hget, hr]
    · simp [is_inlier, hget, hr]

theorem find_inliers_eq (residuals : List R) (thresh : R) (n : Nat) (h : n ≤ residuals.length) :
    find_inliers residuals thresh n = .ok (inlier_indices residuals thresh n) := by
  unfold find_inliers inlier_indices
  rw [inlier_loop_eq residuals thresh n 0 [] (by omega), List.range_eq_range']
  simp

theorem mem_inlier_indices {residuals : List R} {thresh : R} {n i : Nat} :
    i ∈ inlier_indices residuals thresh n ↔ i < n ∧ is_inlier residuals thresh i = true := by
  simp [inlier_indices]

theorem ModelEstimator.ResidualPerPoint.covers {P R G : Type} {M : ModelEstimator P R G}
    (h : M.ResidualPerPoint) : M.CoversData :=
  fun p => (h p).ge

theorem ModelEstimator.ShufflePermutes.keepsLength {P R G : Type} {M : ModelEstimator P R G}
    (h : M.ShufflePermutes) : M.ShuffleKeepsLength :=
  fun g l => (h g l).length_eq

omit [LE R] [DecidableRel (fun a b : R => a ≤ b)] in
theorem after_trial_config (s : RandomSampleConsensusBase P R) (t : Trial P R) :
    (after_trial s t).sample_size_ = s.sample_size_ ∧
    (after_trial s t).inlier_count_thresh_ = s.inlier_count_thresh_ ∧
    (after_trial s t).max_iter_ = s.max_iter_ ∧
    (after_trial s t).inlier_dist_thresh_ = s.inlier_dist_thresh_ ∧
    (after_trial s t).re_estimate_ = s.re_estimate_ ∧
    (after_trial s t).iteration_count_ = s.iteration_count_ + 1 := by
  unfold after_trial
  split <;> simp

/-- With a model that covers the data and a length-preserving shuffle, a pass
started in bounds succeeds with `step_outcome`. -/
theorem trial_step_eq (M : ModelEstimator P R G) (hres : M.CoversData)
    (hsh : M.ShuffleKeepsLength) (st : LoopState P R G) (hb : st.InBounds M) :
    trial_step M st = .ok (step_outcome M st) := by
  obtain ⟨hlen, hstart, hsize⟩ := hb
  unfold trial_step step_outcome drawn_trial
  simp only [hlen]
  by_cases hre : M.getDataPointsCount - st.sample_start < st.self.sample_size_
  · have hfit : 0 + st.self.sample_size_ ≤ (M.shuffle st.rng st.perm).1.length := by
      rw [hsh, hlen]; omega
    simp only [hre, decide_True, if_true, hfit, find_inliers_eq _ _ _ (hres _), trial_record,
      after_trial]
    split_ifs <;> simp_all
    all_goals omega
  · have hfit : st.sample_start + st.self.sample_size_ ≤ M.getDataPointsCount := by omega
    simp only [hre, decide_False, if_false, hfit, if_true, find_inliers_eq _ _ _ (hres _),
      trial_record, after_trial, Bool.false_eq_true]
    split_ifs <;> simp_all
    all_goals omega

theorem step_outcome_facts (M : ModelEstimator P R G) (hsh : M.ShuffleKeepsLength)
    (st : LoopState P R G) (hb : st.InBounds M) :
    StepFacts M st (drawn_trial M st) (step_outcome M st).1 (step_outcome M st).2 := by
  obtain ⟨hlen, hstart, hsize⟩ := hb
  have hcfg := after_trial_config st.self (drawn_trial M st)
  have hperm : (drawn_trial M st).perm.length = M.getDataPointsCount := by
    unfold drawn_trial
    split
    · simp [trial_record, hsh st.rng st.perm, hlen]
    · simp [trial_record, hlen]
  have hblock : (drawn_trial M st).start + st.self.sample_size_ ≤ M.getDataPointsCount := by
    unfold drawn_trial
    split
    · simpa [trial_record] using hsize
    · simp only [trial_record]; omega
  exact
    { trace_eq := rfl
      self_eq := rfl
      perm_eq := rfl
      start_eq := rfl
      shuffles_eq := rfl
      reshuffled := fun h => by simp [drawn_trial, h, trial_record]
      kept := fun h => by simp [drawn_trial, h, trial_record]
      block_le := hblock
      sample_eq := by unfold drawn_trial; split <;> rfl
      params_eq := by unfold drawn_trial; split <;> rfl
      residuals_eq := by unfold drawn_trial; split <;> rfl
      inliers_eq := by unfold drawn_trial; split <;> rfl
      break_iff := by simp [step_outcome]
      inBounds := ⟨hperm, by simpa [step_outcome] using hblock,
        by simpa [step_outcome, hcfg.1] using hsize⟩ }

/-- With a model that covers the data and a length-preserving shuffle, a pass
started in bounds succeeds, and it establishes `StepFacts`. -/
theorem trial_step_spec (M : ModelEstimator P R G) (hres : M.CoversData)
    (hsh : M.ShuffleKeepsLength) (st : LoopState P R G) (hb : st.InBounds M) :
    ∃ t st1 b, trial_step M st = .ok (st1, b) ∧ StepFacts M st t st1 b :=
  ⟨_, _, _, trial_step_eq M hres hsh st hb, step_outcome_facts M hsh st hb⟩

/-! ### The trial loop, the state it is entered in, and the whole run -/

omit [LE R] [DecidableRel (fun a b : R => a ≤ b)] in
theorem loop_entry_self (M : ModelEstimator P R G) (seed : G)
    (s : RandomSampleConsensusBase P R) :
    (loop_entry M seed s).self =
      { s with
        sample_size_ := min s.sample_size_ M.getDataPointsCount
        inlier_count_thresh_ := min s.inlier_count_thresh_ M.getDataPointsCount
        iteration_count_ := 0 } := by
  unfold loop_entry
  by_cases h1 : M.getDataPointsCount < s.sample_size_ <;>
    by_cases h2 : s.inlier_count_thresh_ > M.getDataPointsCount <;>
    simp [h1, h2] <;> omega

omit [LE R] [DecidableRel (fun a b : R => a ≤ b)] in
theorem loop_entry_trace (M : ModelEstimator P R G) (seed : G)
    (s : RandomSampleConsensusBase P R) : (loop_entry M seed s).trace = [] := rfl

omit [LE R] [DecidableRel (fun a b : R => a ≤ b)] in
theorem loop_entry_shuffles (M : ModelEstimator P R G) (seed : G)
    (s : RandomSampleConsensusBase P R) : (loop_entry M seed s).shuffles = 1 := rfl

omit [LE R] [DecidableRel (fun a b : R => a ≤ b)] in
theorem loop_entry_sample_start (M : ModelEstimator P R G) (seed : G)
    (s : RandomSampleConsensusBase P R) : (loop_entry M seed s).sample_start = 0 := rfl

omit [LE R] [DecidableRel (fun a b : R => a ≤ b)] in
theorem loop_entry_inBounds (M : ModelEstimator P R G) (hsh : M.ShuffleKeepsLength) (seed : G)
    (s : RandomSampleConsensusBase P R) : (loop_entry M seed s).InBounds M := by
  refine ⟨?_, ?_, ?_⟩
  · simp [loop_entry, hsh seed]
  · simp [loop_entry]
  · rw [loop_entry_self]; exact Nat.min_le_right _ _

/-- Invariant rule for the trial loop.  A property `J` that every successful
pass preserves holds when the loop exits; the loop does exit within
`max_iter_ - iteration_count_` passes, and it exits below the iteration cap
only with the target inlier count reached. -/
theorem trial_loop_spec (M : ModelEstimator P R G) (hres : M.CoversData)
    (hsh : M.ShuffleKeepsLength) (J : LoopState P R G → Prop)
    (hJ : ∀ st t st1 b, st.InBounds M → J st →
      st.self.iteration_count_ < st.self.max_iter_ → StepFacts M st t st1 b → J st1) :
    ∀ (fuel : Nat) (st : LoopState P R G), st.InBounds M → J st →
      st.self.max_iter_ - st.self.iteration_count_ ≤ fuel →
      ∃ st1, trial_loop M fuel st = .ok st1 ∧ st1.InBounds M ∧ J st1 ∧
        (st1.self.iteration_count_ < st1.self.max_iter_ →
          st1.self.inlier_count_thresh_ ≤ st1.self.model_inliers_.length) := by
  intro fuel
  induction fuel with
  | zero =>
    intro st hb hj hfuel
    have hdone : ¬ st.self.iteration_count_ < st.self.max_iter_ := by omega
    exact ⟨st, by simp [trial_loop, hdone], hb, hj, fun h => absurd h hdone⟩
  | succ fuel ih =>
    intro st hb hj hfuel
    by_cases hlt : st.self.iteration_count_ < st.self.max_iter_
    · obtain ⟨t, st1, b, heq, hfacts⟩ := trial_step_spec M hres hsh st hb
      have hj1 : J st1 := hJ st t st1 b hb hj hlt hfacts
      have hcfg := after_trial_config st.self t
      rw [← hfacts.self_eq] at hcfg
      cases b with
      | true =>
        refine ⟨st1, by simp [trial_loop, hlt, heq], hfacts.inBounds, hj1, fun _ => ?_⟩
        exact (hfacts.break_iff.mp rfl).2
      | false =>
        obtain ⟨st2, h2, hb2, hj2, hexit⟩ := ih st1 hfacts.inBounds hj1 (by omega)
        exact ⟨st2, by simp [trial_loop, hlt, heq, h2], hb2, hj2, hexit⟩
    · exact ⟨st, by simp [trial_loop, hlt], hb, hj, fun h => absurd h hlt⟩

/-- Invariant rule for lines 102-164 of `estimate_model_`. -/
theorem trial_phase_spec (M : ModelEstimator P R G) (hres : M.CoversData)
    (hsh : M.ShuffleKeepsLength) (J : LoopState P R G → Prop) (seed : G)
    (s : RandomSampleConsensusBase P R) (h0 : J (loop_entry M seed s))
    (hJ : ∀ st t st1 b, st.InBounds M → J st →
      st.self.iteration_count_ < st.self.max_iter_ → StepFacts M st t st1 b → J st1) :
    ∃ st1, trial_phase M seed s = .ok st1 ∧ st1.InBounds M ∧ J st1 ∧
      (st1.self.iteration_count_ < st1.self.max_iter_ →
        st1.self.inlier_count_thresh_ ≤ st1.self.model_inliers_.length) :=
  trial_loop_spec M hres hsh J hJ _ _ (loop_entry_inBounds M hsh seed s) h0 (Nat.sub_le _ _)

/-- The re-estimation step with a model that covers the data. -/
theorem re_estimate_step_eq (M : ModelEstimator P R G) (hres : M.CoversData)
    (s : RandomSampleConsensusBase P R) :
    re_estimate_step M s = .ok
      (if s.re_estimate_ then
        { s with
          model_params_ := M.estimateModelParameters s.model_inliers_
          model_residuals_ := M.computeResiduals (M.estimateModelParameters s.model_inliers_)
          model_inliers_ := inlier_indices
            (M.computeResiduals (M.estimateModelParameters s.model_inliers_))
            s.inlier_dist_thresh_ M.getDataPointsCount }
      else s) := by
  unfold re_estimate_step
  split
  · simp only [find_inliers_eq _ _ _ (hres _)]
  · rfl

omit [LE R] [DecidableRel (fun a b : R => a ≤ b)] in
theorem LoopState.Follows.refl (st : LoopState P R G) : st.Follows st := by
  simp [LoopState.Follows]

theorem LoopState.Follows.follows_step {M : ModelEstimator P R G} {st0 st st1 : LoopState P R G}
    {t : Trial P R} {b : Bool} (h : st0.Follows st)
    (hlt : st.self.iteration_count_ < st.self.max_iter_) (hf : StepFacts M st t st1 b) :
    st0.Follows st1 := by
  have hcfg := after_trial_config st.self t
  rw [← hf.self_eq] at hcfg
  obtain ⟨h1, h2, h3, h4, h5, h6, h7, h8⟩ := h
  obtain ⟨c1, c2, c3, c4, c5, c6⟩ := hcfg
  refine ⟨c1.trans h1, c2.trans h2, c3.trans h3, c4.trans h4, c5.trans h5, ?_, ?_, ?_⟩
  · rw [hf.trace_eq]; simp; omega
  · rw [hf.trace_eq]; simp; omega
  · intro _; omega

theorem estimate_model_of_trial_phase (M : ModelEstimator P R G) (hres : M.CoversData)
    (seed : G) (s : RandomSampleConsensusBase P R) (st : LoopState P R G)
    (h : trial_phase M seed s = .ok st) :
    estimate_model_ M seed s = .ok (reported M st.self) := by
  unfold estimate_model_
  rw [h]
  exact re_estimate_step_eq M hres st.self

omit [LE R] [DecidableRel (fun a b : R => a ≤ b)] in
theorem new_iteration_count (p0 : P) (ss tc mi : Nat) (th : R) (re : Bool) :
    (RandomSampleConsensusBase.new p0 ss tc mi th re).iteration_count_ = 0 := rfl

theorem mem_inlier_indices_length {residuals : List R} {thresh : R} {i : Nat} :
    i ∈ inlier_indices residuals thresh residuals.length ↔
      ∃ r, residuals[i]? = some r ∧ r ≤ thresh := by
  rw [mem_inlier_indices]
  constructor
  · rintro ⟨hi, hin⟩
    refine ⟨residuals[i], List.getElem?_eq_getElem hi, ?_⟩
    simpa [is_inlier, List.getElem?_eq_getElem hi] using hin
  · rintro ⟨r, hr, hle⟩
    have hi : i < residuals.length := by
      by_contra hcon
      rw [List.getElem?_eq_none (by omega)] at hr
      cases hr
    exact ⟨hi, by simp [is_inlier, hr, hle]⟩

/-! ### Invariants of the trial loop -/

theorem foldr_max_concat (l : List Nat) (x : Nat) :
    (l ++ [x]).foldr max 0 = max (l.foldr max 0) x := by
  induction l with
  | nil => simp
  | cons a l ih => simp only [List.cons_append, List.foldr_cons, ih, max_assoc]

omit [LE R] [DecidableRel (fun a b : R => a ≤ b)] in
theorem best_count_concat (size : Nat) (trace : List (Trial P R)) (t : Trial P R) :
    best_count size (trace ++ [t]) =
      if size ≤ t.inliers.length then max (best_count size trace) t.inliers.length
      else best_count size trace := by
  unfold best_count
  by_cases h : size ≤ t.inliers.length
  · simp only [List.filter_append, List.map_append, h, if_true]
    have : List.filter (fun t => decide (size ≤ t.inliers.length)) [t] = [t] := by simp [h]
    rw [this, List.map_singleton, foldr_max_concat]
  · simp [List.filter_append, h]

omit [LE R] [DecidableRel (fun a b : R => a ≤ b)] in
theorem le_best_count (size : Nat) (trace : List (Trial P R)) (t : Trial P R) (hmem : t ∈ trace)
    (hq : size ≤ t.inliers.length) : t.inliers.length ≤ best_count size trace := by
  induction trace using List.reverseRecOn with
  | nil => simp at hmem
  | append_singleton l x ih =>
    rw [best_count_concat]
    rcases List.mem_append.mp hmem with h | h
    · have := ih h
      split <;> omega
    · have hx : t = x := by simpa using h
      subst hx
      simp [hq]

theorem LoopState.BestIsEarliest.bestIsEarliest_step {M : ModelEstimator P R G} {size : Nat}
    {st st1 : LoopState P R G} {t : Trial P R} {b : Bool} (h : st.BestIsEarliest size)
    (hf : StepFacts M st t st1 b) : st1.BestIsEarliest size := by
  obtain ⟨hsize, hlen, hbest⟩ := h
  have hcfg := after_trial_config st.self t
  unfold LoopState.BestIsEarliest
  rw [hf.self_eq, hf.trace_eq, best_count_concat, hcfg.1]
  refine ⟨hsize, ?_⟩
  by_cases hwin : st.self.sample_size_ ≤ t.inliers.length ∧
      st.self.model_inliers_.length < t.inliers.length
  · have hq : size ≤ t.inliers.length := hsize ▸ hwin.1
    have hmax : max (best_count size st.trace) t.inliers.length = t.inliers.length := by
      rw [← hlen]; exact max_eq_right hwin.2.le
    simp only [after_trial, hwin, and_self, if_true, hq, hmax, true_and]
    intro _
    refine ⟨t, ?_, rfl, rfl, rfl⟩
    unfold earliest_with
    have hnone : st.trace.find? (fun x => decide (x.inliers.length = t.inliers.length))
        = none := by
      rw [List.find?_eq_none]
      intro x hx hxeq
      have hxeq1 : x.inliers.length = t.inliers.length := by simpa using hxeq
      have := le_best_count size st.trace x hx (by omega)
      omega
    simp [List.find?_append, hnone]
  · have hsame : (if size ≤ t.inliers.length then max (best_count size st.trace)
        t.inliers.length else best_count size st.trace) = best_count size st.trace := by
      split
      · apply max_eq_left
        rw [← hlen]
        rw [hsize] at hwin
        omega
      · rfl
    simp only [after_trial, hwin, if_false, hsame]
    refine ⟨hlen, fun hpos => ?_⟩
    obtain ⟨x, hx, hx1, hx2, hx3⟩ := hbest hpos
    refine ⟨x, ?_, hx1, hx2, hx3⟩
    unfold earliest_with at hx ⊢
    simp [List.find?_append, hx]

theorem LoopState.TraceGenuine.traceGenuine_step {M : ModelEstimator P R G}
    {st st1 : LoopState P R G} {t : Trial P R} {b : Bool} (h : st.TraceGenuine M)
    (hf : StepFacts M st t st1 b) : st1.TraceGenuine M := by
  have hcfg := after_trial_config st.self t
  intro x hx
  rw [hf.trace_eq] at hx
  rw [hf.self_eq, hcfg.2.2.2.1]
  rcases List.mem_append.mp hx with h1 | h1
  · exact h x h1
  · have hxt : x = t := by simpa using h1
    subst hxt
    exact ⟨hf.params_eq, hf.residuals_eq, hf.inliers_eq⟩

theorem LoopState.SamplesAreBlocks.samplesAreBlocks_step {M : ModelEstimator P R G} {size : Nat}
    {st st1 : LoopState P R G} {t : Trial P R} {b : Bool} (h : st.SamplesAreBlocks M size)
    (hf : StepFacts M st t st1 b) : st1.SamplesAreBlocks M size := by
  have hcfg := after_trial_config st.self t
  refine ⟨by rw [hf.self_eq, hcfg.1]; exact h.1, fun x hx => ?_⟩
  rw [hf.trace_eq] at hx
  rcases List.mem_append.mp hx with h1 | h1
  · exact h.2 x h1
  · have hxt : x = t := by simpa using h1
    subst hxt
    refine ⟨?_, h.1 ▸ hf.block_le, h.1 ▸ hf.sample_eq⟩
    rw [← hf.perm_eq]
    exact hf.inBounds.perm_length

theorem block_length (perm : List Nat) (start size : Nat) (h : start + size ≤ perm.length) :
    ((perm.drop start).take size).length = size := by
  rw [List.length_take, List.length_drop]
  omega

theorem LoopState.UntouchedWhileNoneQualifies.untouched_step {M : ModelEstimator P R G} {size : Nat}
    {s0 : RandomSampleConsensusBase P R} {st st1 : LoopState P R G} {t : Trial P R} {b : Bool}
    (h : st.UntouchedWhileNoneQualifies size s0) (hf : StepFacts M st t st1 b) :
    st1.UntouchedWhileNoneQualifies size s0 := by
  have hcfg := after_trial_config st.self t
  refine ⟨by rw [hf.self_eq, hcfg.1]; exact h.1, fun hall => ?_⟩
  rw [hf.trace_eq] at hall
  have hold := h.2 (fun x hx => hall x (List.mem_append_left _ hx))
  have ht : t.inliers.length < size := hall t (by simp)
  have hno : ¬ (st.self.sample_size_ ≤ t.inliers.length ∧
      st.self.model_inliers_.length < t.inliers.length) := by
    rw [h.1]; omega
  rw [hf.self_eq]
  simpa [after_trial, hno] using hold

theorem blocks_disjoint (perm : List Nat) (hp : perm.Nodup) (i j k m : Nat) (h : i + k ≤ j) :
    ((perm.drop i).take k).Disjoint ((perm.drop j).take m) := by
  have h1 : (perm.drop i).take k ⊆ perm.take j := by
    rw [List.take_drop]
    exact (List.drop_subset _ _).trans (List.take_subset_take_left perm h)
  have h2 : (perm.drop j).take m ⊆ perm.drop j := List.take_subset _ _
  have hd : (perm.take j).Disjoint (perm.drop j) := by
    apply List.disjoint_of_nodup_append
    rw [List.take_append_drop]
    exact hp
  exact List.disjoint_of_subset_left h1 (List.disjoint_of_subset_right h2 hd)

theorem block_nodup_lt (perm : List Nat) (n start size : Nat) (hp : perm.Perm (List.range n)) :
    ((perm.drop start).take size).Nodup ∧ ∀ i ∈ (perm.drop start).take size, i < n := by
  have hsub : ((perm.drop start).take size).Sublist perm :=
    (List.take_sublist _ _).trans (List.drop_sublist _ _)
  refine ⟨(hp.nodup_iff.mpr (List.nodup_range n)).sublist hsub, fun i hi => ?_⟩
  exact List.mem_range.mp (hp.subset (hsub.subset hi))

theorem LoopState.PermsOk.permsOk_step {M : ModelEstimator P R G} (hsh : M.ShufflePermutes)
    {st st1 : LoopState P R G} {t : Trial P R} {b : Bool} (h : st.PermsOk M)
    (hf : StepFacts M st t st1 b) : st1.PermsOk M := by
  have htp : t.perm.Perm (List.range M.getDataPointsCount) := by
    by_cases hre : M.getDataPointsCount - st.sample_start < st.self.sample_size_
    · rw [(hf.reshuffled hre).1]; exact (hsh _ _).trans h.1
    · rw [(hf.kept hre).1]; exact h.1
  refine ⟨by rw [hf.perm_eq]; exact htp, fun x hx => ?_⟩
  rw [hf.trace_eq] at hx
  rcases List.mem_append.mp hx with h1 | h1
  · exact h.2 x h1
  · have hxt : x = t := by simpa using h1
    subst hxt
    exact ⟨htp, hf.params_eq⟩

theorem LoopState.EpochsOk.epochsOk_step {M : ModelEstimator P R G} {size : Nat}
    {st st1 : LoopState P R G} {t : Trial P R} {b : Bool} (h : st.EpochsOk size)
    (hp : st.PermsOk M) (hf : StepFacts M st t st1 b) : st1.EpochsOk size := by
  obtain ⟨hsize, hle, hsame, hpair⟩ := h
  have hcfg := after_trial_config st.self t
  have hts : t.sample = (t.perm.drop t.start).take size := hsize ▸ hf.sample_eq
  have hold : ∀ x ∈ st.trace, x.epoch = t.epoch →
      x.perm = t.perm ∧ x.start + size ≤ t.start ∧
      x.sample = (x.perm.drop x.start).take size := by
    intro x hx hxe
    by_cases hre : M.getDataPointsCount - st.sample_start < st.self.sample_size_
    · have := hle x hx
      have := (hf.reshuffled hre).2.2
      omega
    · obtain ⟨k1, k2, k3⟩ := hf.kept hre
      obtain ⟨e1, e2, e3⟩ := hsame x hx (hxe.trans k3)
      exact ⟨e1.trans k1.symm, by omega, e3⟩
  have hmono : st.shuffles ≤ t.epoch := by
    by_cases hre : M.getDataPointsCount - st.sample_start < st.self.sample_size_
    · have := (hf.reshuffled hre).2.2; omega
    · have := (hf.kept hre).2.2; omega
  refine ⟨by rw [hf.self_eq, hcfg.1]; exact hsize, ?_, ?_, ?_⟩
  · intro x hx
    rw [hf.trace_eq] at hx
    rw [hf.shuffles_eq]
    rcases List.mem_append.mp hx with h1 | h1
    · have := hle x h1; omega
    · have hxt : x = t := by simpa using h1
      rw [hxt]
  · intro x hx hxe
    rw [hf.trace_eq] at hx
    rw [hf.shuffles_eq] at hxe
    rw [hf.perm_eq, hf.start_eq, hsize]
    rcases List.mem_append.mp hx with h1 | h1
    · obtain ⟨e1, e2, e3⟩ := hold x h1 hxe
      exact ⟨e1, by omega, e3⟩
    · have hxt : x = t := by simpa using h1
      subst hxt
      exact ⟨rfl, le_refl _, hts⟩
  · rw [hf.trace_eq, List.pairwise_append]
    refine ⟨hpair, List.pairwise_singleton _ _, fun a ha x hx hax => ?_⟩
    have hxt : x = t := by simpa using hx
    subst hxt
    obtain ⟨e1, e2, e3⟩ := hold a ha hax
    have hnd : x.perm.Nodup := by
      have hxp : x.perm.Perm (List.range M.getDataPointsCount) := by
        by_cases hre : M.getDataPointsCount - st.sample_start < st.self.sample_size_
        · have := hle a ha
          have := (hf.reshuffled hre).2.2
          omega
        · rw [(hf.kept hre).1]; exact hp.1
      exact hxp.nodup_iff.mpr (List.nodup_range _)
    rw [e3, hts, e1]
    exact blocks_disjoint x.perm hnd a.start x.start size size e2

theorem LoopState.ChainOk.chainOk_step {M : ModelEstimator P R G} {size : Nat}
    {st st1 : LoopState P R G} {t : Trial P R} {b : Bool} (h : st.ChainOk M size)
    (hb : st.InBounds M) (hf : StepFacts M st t st1 b) : st1.ChainOk M size := by
  obtain ⟨hsize, hnil, hhead, hlast, hchain⟩ := h
  have hcfg := after_trial_config st.self t
  refine ⟨by rw [hf.self_eq, hcfg.1]; exact hsize, ?_, ?_, ?_, ?_⟩
  · intro hempty
    rw [hf.trace_eq] at hempty
    simp at hempty
  · intro x hx
    rw [hf.trace_eq, List.head?_append] at hx
    cases htr : st.trace with
    | nil =>
      rw [htr] at hx
      have hxt : t = x := by simpa using hx
      subst hxt
      obtain ⟨n1, n2⟩ := hnil htr
      have hre : ¬ M.getDataPointsCount - st.sample_start < st.self.sample_size_ := by
        have := hb.size_le
        omega
      obtain ⟨-, k2, k3⟩ := hf.kept hre
      exact ⟨k3.trans n1, k2.trans n2⟩
    | cons y l =>
      rw [htr] at hx
      have hxy : y = x := by simpa using hx
      exact hhead x (by rw [htr, ← hxy]; rfl)
  · intro x hx
    rw [hf.trace_eq, List.getLast?_concat] at hx
    have hxt : t = x := by simpa using hx
    subst hxt
    exact ⟨hf.shuffles_eq.symm, by rw [hf.start_eq, hsize], hf.perm_eq.symm⟩
  · rw [hf.trace_eq, List.chain'_append]
    refine ⟨hchain, List.chain'_singleton _, fun x hx y hy => ?_⟩
    have hyt : t = y := by simpa using hy
    subst hyt
    obtain ⟨l1, l2, l3⟩ := hlast x hx
    unfold Trial.FollowsBlock
    rw [l2, ← hsize]
    refine ⟨fun hre => ?_, fun hre => ?_⟩
    · obtain ⟨-, k2, k3⟩ := hf.reshuffled hre
      exact ⟨by omega, k2⟩
    · obtain ⟨k1, k2, k3⟩ := hf.kept hre
      exact ⟨by omega, by omega, k1.trans l3.symm⟩

/-! ### Claims about `estimate_model_` and the result accessors -/

/-- C1. On the first run of a freshly constructed estimator, for every
configuration, every seed and every model that returns one residual per data
point (with a shuffle that keeps the size of the vector), the run succeeds and
the reported inlier sequence is exactly the increasing list of the indices of
the reported residual vector whose residual is at most `getMaxInlierResidual()`:
an index is reported if and only if its residual is within the threshold.  The
three result accessors called on the fresh object report the same run. -/
theorem first_run_inliers_are_residuals_within_threshold (M : ModelEstimator P R G)
    (hres : M.ResidualPerPoint) (hsh : M.ShuffleKeepsLength) (seed : G) (p0 : P)
    (ss tc mi : Nat) (th : R) (re : Bool) :
    ∃ params residuals inliers s1,
      getEstimationResults M seed (RandomSampleConsensusBase.new p0 ss tc mi th re)
        = .ok ((params, residuals, inliers), s1) ∧
      getModelResiduals M seed (RandomSampleConsensusBase.new p0 ss tc mi th re)
        = .ok (residuals, s1) ∧
      getModelInliers M seed (RandomSampleConsensusBase.new p0 ss tc mi th re)
        = .ok (inliers, s1) ∧
      getMaxInlierResidual s1 = th ∧
      inliers = (List.range residuals.length).filter (is_inlier residuals th) ∧
      ∀ i, i ∈ inliers ↔ ∃ r, residuals[i]? = some r ∧ r ≤ th := by
  obtain ⟨st, hphase, -, ⟨hinl, hth⟩, -⟩ :=
    trial_phase_spec M hres.covers hsh
      (fun st => st.self.model_inliers_ = inlier_indices st.self.model_residuals_ th
          st.self.model_residuals_.length ∧ st.self.inlier_dist_thresh_ = th)
      seed (RandomSampleConsensusBase.new p0 ss tc mi th re)
      (by simp [loop_entry_self, RandomSampleConsensusBase.new, inlier_indices])
      (by
        rintro st t st1 b - ⟨hinl, hth⟩ - hf
        rw [hf.self_eq]
        have hti := hf.inliers_eq
        rw [hth, ← hres t.params, ← hf.residuals_eq] at hti
        unfold after_trial
        split
        · exact ⟨hti, hth⟩
        · exact ⟨hinl, hth⟩)
  have hrun := estimate_model_of_trial_phase M hres.covers seed _ st hphase
  have hfinal : (reported M st.self).model_inliers_ =
      inlier_indices (reported M st.self).model_residuals_ th
        (reported M st.self).model_residuals_.length ∧
      (reported M st.self).inlier_dist_thresh_ = th := by
    unfold reported
    split
    · exact ⟨by simp only [hth, hres _], hth⟩
    · exact ⟨hinl, hth⟩
  refine ⟨(reported M st.self).model_params_, (reported M st.self).model_residuals_,
    (reported M st.self).model_inliers_, reported M st.self, ?_, ?_, ?_, hfinal.2, hfinal.1, ?_⟩
  · simp [getEstimationResults, ensure_estimated, new_iteration_count, hrun]
  · simp [getModelResiduals, ensure_estimated, new_iteration_count, hrun]
  · simp [getModelInliers, ensure_estimated, new_iteration_count, hrun]
  · intro i
    rw [hfinal.1]
    exact mem_inlier_indices_length

/-- C2. On the first run of a freshly constructed estimator with re-estimation
disabled (any seed, any model that covers the data, a shuffle that keeps the
size of the vector) the run succeeds; the recorded trials are the performed
ones, each holding the model's answer for its sample; the reported inlier count
is the maximum inlier count over the performed trials with at least
`min(sample_size, n)` inliers (0 when there is none); and when that maximum is
positive the reported parameters, residuals and inliers are those of the
earliest performed trial with that inlier count. -/
theorem first_run_reports_earliest_best_trial (M : ModelEstimator P R G)
    (hres : M.CoversData) (hsh : M.ShuffleKeepsLength) (seed : G) (p0 : P)
    (ss tc mi : Nat) (th : R) :
    ∃ st,
      trial_phase M seed (RandomSampleConsensusBase.new p0 ss tc mi th false) = .ok st ∧
      estimate_model_ M seed (RandomSampleConsensusBase.new p0 ss tc mi th false)
        = .ok st.self ∧
      getSampleSize st.self = min ss M.getDataPointsCount ∧
      st.trace.length = getPerformedIterationsCount st.self ∧
      (∀ t ∈ st.trace, t.Genuine M th) ∧
      getNumberOfInliers st.self = best_count (min ss M.getDataPointsCount) st.trace ∧
      (0 < best_count (min ss M.getDataPointsCount) st.trace →
        ∃ t, earliest_with (best_count (min ss M.getDataPointsCount) st.trace) st.trace
            = some t ∧
          t.params = st.self.model_params_ ∧ t.residuals = st.self.model_residuals_ ∧
          t.inliers = st.self.model_inliers_) := by
  obtain ⟨st, hphase, -, ⟨hfol, hbest, hgen⟩, -⟩ :=
    trial_phase_spec M hres hsh
      (fun st => (loop_entry M seed (RandomSampleConsensusBase.new p0 ss tc mi th false)).Follows st
        ∧ st.BestIsEarliest (min ss M.getDataPointsCount) ∧ st.TraceGenuine M)
      seed (RandomSampleConsensusBase.new p0 ss tc mi th false)
      ⟨LoopState.Follows.refl _,
        by simp [LoopState.BestIsEarliest, loop_entry_self, RandomSampleConsensusBase.new,
          loop_entry_trace, best_count],
        by simp [LoopState.TraceGenuine, loop_entry_trace]⟩
      (fun st t st1 b _ hj hlt hf =>
        ⟨hj.1.follows_step hlt hf, hj.2.1.bestIsEarliest_step hf, hj.2.2.traceGenuine_step hf⟩)
  have hrun := estimate_model_of_trial_phase M hres seed _ st hphase
  obtain ⟨-, -, -, f4, f5, f6, -, -⟩ := hfol
  have hre : st.self.re_estimate_ = false := by
    rw [f5, loop_entry_self]; rfl
  have hth : st.self.inlier_dist_thresh_ = th := by
    rw [f4, loop_entry_self]; rfl
  have hrep : reported M st.self = st.self := by simp [reported, hre]
  rw [hrep] at hrun
  refine ⟨st, hphase, hrun, hbest.1, ?_, ?_, hbest.2.1, hbest.2.2⟩
  · rw [getPerformedIterationsCount, f6]
    simp [loop_entry_self, loop_entry_trace]
  · intro t ht
    exact hth ▸ hgen t ht

/-- C3. For every object state (so every requested sample size `s` and target
inlier count `t`) and every data count `n`, `n = 0` included, a run with a
model that covers the data and a shuffle that keeps the size of the vector
completes without a fault; afterwards `getSampleSize() = min(s, n)` and
`getTargetInlierCount() = min(t, n)`, and every sample drawn during the run is
a block of exactly `min(s, n)` entries that lies inside the permutation. -/
theorem run_completes_with_clamped_sizes (M : ModelEstimator P R G)
    (hres : M.CoversData) (hsh : M.ShuffleKeepsLength) (seed : G)
    (s : RandomSampleConsensusBase P R) :
    ∃ st s1,
      trial_phase M seed s = .ok st ∧
      estimate_model_ M seed s = .ok s1 ∧
      getSampleSize s1 = min (getSampleSize s) M.getDataPointsCount ∧
      getTargetInlierCount s1 = min (getTargetInlierCount s) M.getDataPointsCount ∧
      ∀ t ∈ st.trace,
        t.sample.length = min (getSampleSize s) M.getDataPointsCount ∧
        t.start + min (getSampleSize s) M.getDataPointsCount ≤ t.perm.length ∧
        t.sample = (t.perm.drop t.start).take (min (getSampleSize s) M.getDataPointsCount) := by
  obtain ⟨st, hphase, -, ⟨hfol, hblk⟩, -⟩ :=
    trial_phase_spec M hres hsh
      (fun st => (loop_entry M seed s).Follows st
        ∧ st.SamplesAreBlocks M (min s.sample_size_ M.getDataPointsCount))
      seed s
      ⟨LoopState.Follows.refl _,
        by simp [LoopState.SamplesAreBlocks, loop_entry_self, loop_entry_trace]⟩
      (fun st t st1 b _ hj hlt hf => ⟨hj.1.follows_step hlt hf, hj.2.samplesAreBlocks_step hf⟩)
  have hrun := estimate_model_of_trial_phase M hres seed _ st hphase
  obtain ⟨f1, f2, -, -, -, -, -, -⟩ := hfol
  refine ⟨st, reported M st.self, hphase, hrun, ?_, ?_, fun t ht => ?_⟩
  · have : (reported M st.self).sample_size_ = st.self.sample_size_ := by
      unfold reported; split <;> rfl
    rw [getSampleSize, this, f1, loop_entry_self]
    rfl
  · have : (reported M st.self).inlier_count_thresh_ = st.self.inlier_count_thresh_ := by
      unfold reported; split <;> rfl
    rw [getTargetInlierCount, this, f2, loop_entry_self]
    rfl
  · obtain ⟨h1, h2, h3⟩ := hblk.2 t ht
    have hle : t.start + min (getSampleSize s) M.getDataPointsCount ≤ t.perm.length := by
      rw [h1]; exact h2
    exact ⟨by rw [h3]; exact block_length _ _ _ hle, hle, h3⟩

/-- C4. Every run (from any object state, with a model that covers the data and
a shuffle that keeps the size of the vector) terminates: the trial loop exits
after exactly `getPerformedIterationsCount()` recorded trials, that count is at
most `getMaxNumberOfIterations()`, and when it is strictly below the cap the
best-so-far inlier set at the exit of the loop has at least the clamped target
inlier count. -/
theorem run_stops_at_cap_or_target (M : ModelEstimator P R G)
    (hres : M.CoversData) (hsh : M.ShuffleKeepsLength) (seed : G)
    (s : RandomSampleConsensusBase P R) :
    ∃ st s1,
      trial_phase M seed s = .ok st ∧
      estimate_model_ M seed s = .ok s1 ∧
      st.trace.length = getPerformedIterationsCount s1 ∧
      getMaxNumberOfIterations s1 = getMaxNumberOfIterations s ∧
      getPerformedIterationsCount s1 ≤ getMaxNumberOfIterations s1 ∧
      (getPerformedIterationsCount s1 < getMaxNumberOfIterations s1 →
        min (getTargetInlierCount s) M.getDataPointsCount ≤ st.self.model_inliers_.length) := by
  obtain ⟨st, hphase, -, hfol, hexit⟩ :=
    trial_phase_spec M hres hsh (fun st => (loop_entry M seed s).Follows st) seed s
      (LoopState.Follows.refl _) (fun st t st1 b _ hj hlt hf => hj.follows_step hlt hf)
  have hrun := estimate_model_of_trial_phase M hres seed _ st hphase
  obtain ⟨-, f2, f3, -, -, f6, -, f8⟩ := hfol
  have hit : (reported M st.self).iteration_count_ = st.self.iteration_count_ := by
    unfold reported; split <;> rfl
  have hmx : (reported M st.self).max_iter_ = st.self.max_iter_ := by
    unfold reported; split <;> rfl
  have h0 : (loop_entry M seed s).self.iteration_count_ = 0 := by rw [loop_entry_self]
  have hm : (loop_entry M seed s).self.max_iter_ = s.max_iter_ := by rw [loop_entry_self]
  have ht : (loop_entry M seed s).self.inlier_count_thresh_
      = min s.inlier_count_thresh_ M.getDataPointsCount := by rw [loop_entry_self]
  simp only [getPerformedIterationsCount, getMaxNumberOfIterations, getTargetInlierCount]
  refine ⟨st, reported M st.self, hphase, hrun, ?_, ?_, ?_, ?_⟩
  · rw [hit, f6, h0, loop_entry_trace]; simp
  · rw [hmx, f3, hm]
  · rw [hit, hmx]; exact f8 (by rw [h0]; exact Nat.zero_le _)
  · rw [hit, hmx, ← ht, ← f2]; exact hexit

/-- C5. For every run that starts from any object state (model covering the
data, shuffle keeping the size of the vector), with `B` the best inlier set the
trial loop leaves: when re-estimation is enabled the reported parameters are
`estimateModelParameters(B)`, the reported residuals are `computeResiduals` of
those parameters, and the reported inliers are the increasing list of the
indices below the data count whose recomputed residual is at most the
threshold; when re-estimation is disabled the reported object is exactly the
one the trial loop leaves. -/
theorem final_result_is_refit_of_best_inliers (M : ModelEstimator P R G)
    (hres : M.CoversData) (hsh : M.ShuffleKeepsLength) (seed : G)
    (s : RandomSampleConsensusBase P R) :
    ∃ st s1,
      trial_phase M seed s = .ok st ∧
      estimate_model_ M seed s = .ok s1 ∧
      (getReEstimationStep s = true →
        s1.model_params_ = M.estimateModelParameters st.self.model_inliers_ ∧
        s1.model_residuals_ = M.computeResiduals s1.model_params_ ∧
        s1.model_inliers_ = (List.range M.getDataPointsCount).filter
          (is_inlier s1.model_residuals_ (getMaxInlierResidual s)) ∧
        ∀ i, i ∈ s1.model_inliers_ ↔ i < M.getDataPointsCount ∧
          ∃ r, s1.model_residuals_[i]? = some r ∧ r ≤ getMaxInlierResidual s) ∧
      (getReEstimationStep s = false → s1 = st.self) := by
  obtain ⟨st, hphase, -, hfol, -⟩ :=
    trial_phase_spec M hres hsh (fun st => (loop_entry M seed s).Follows st) seed s
      (LoopState.Follows.refl _) (fun st t st1 b _ hj hlt hf => hj.follows_step hlt hf)
  have hrun := estimate_model_of_trial_phase M hres seed _ st hphase
  obtain ⟨-, -, -, f4, f5, -, -, -⟩ := hfol
  have hth : st.self.inlier_dist_thresh_ = s.inlier_dist_thresh_ := by
    rw [f4, loop_entry_self]
  have hre : st.self.re_estimate_ = s.re_estimate_ := by rw [f5, loop_entry_self]
  simp only [getReEstimationStep, getMaxInlierResidual]
  refine ⟨st, reported M st.self, hphase, hrun, fun h => ?_, fun h => ?_⟩
  · rw [← hre] at h
    have hrep : reported M st.self =
        { st.self with
          model_params_ := M.estimateModelParameters st.self.model_inliers_
          model_residuals_ := M.computeResiduals
            (M.estimateModelParameters st.self.model_inliers_)
          model_inliers_ := inlier_indices
            (M.computeResiduals (M.estimateModelParameters st.self.model_inliers_))
            st.self.inlier_dist_thresh_ M.getDataPointsCount } := by
      unfold reported; rw [if_pos h]
    rw [hrep, ← hth]
    refine ⟨rfl, rfl, rfl, fun i => ?_⟩
    show i ∈ inlier_indices _ _ _ ↔ _
    rw [mem_inlier_indices]
    have hn := hres (M.estimateModelParameters st.self.model_inliers_)
    constructor
    · rintro ⟨hi, hin⟩
      have hi2 : i < (M.computeResiduals
          (M.estimateModelParameters st.self.model_inliers_)).length := by omega
      refine ⟨hi, _, List.getElem?_eq_getElem hi2, ?_⟩
      simpa [is_inlier, List.getElem?_eq_getElem hi2] using hin
    · rintro ⟨hi, r, hr, hle⟩
      exact ⟨hi, by simp [is_inlier, hr, hle]⟩
  · rw [← hre] at h
    simp [reported, h]

/-- C8, as amended.  On the first run of a freshly constructed estimator, for
every configuration: if no performed trial yields at least `min(sample_size, n)`
inliers, the best-so-far at the exit of the trial loop is the initialized empty
state.  With re-estimation disabled the run reports it, so
`getNumberOfInliers() = 0`; with re-estimation enabled the run reports the fit
to the empty inlier set and the inliers of that fit. -/
theorem first_run_without_qualifying_trial (M : ModelEstimator P R G)
    (hres : M.CoversData) (hsh : M.ShuffleKeepsLength) (seed : G) (p0 : P)
    (ss tc mi : Nat) (th : R) (re : Bool) :
    ∃ st s1,
      trial_phase M seed (RandomSampleConsensusBase.new p0 ss tc mi th re) = .ok st ∧
      estimate_model_ M seed (RandomSampleConsensusBase.new p0 ss tc mi th re) = .ok s1 ∧
      ((∀ t ∈ st.trace, t.inliers.length < min ss M.getDataPointsCount) →
        st.self.model_params_ = p0 ∧ st.self.model_residuals_ = [] ∧
        st.self.model_inliers_ = [] ∧
        (re = false → s1 = st.self ∧ getNumberOfInliers s1 = 0) ∧
        (re = true →
          s1.model_params_ = M.estimateModelParameters [] ∧
          s1.model_residuals_ = M.computeResiduals (M.estimateModelParameters []) ∧
          s1.model_inliers_ = inlier_indices
            (M.computeResiduals (M.estimateModelParameters [])) th M.getDataPointsCount)) := by
  obtain ⟨st, hphase, -, ⟨hfol, hunt⟩, -⟩ :=
    trial_phase_spec M hres hsh
      (fun st => (loop_entry M seed (RandomSampleConsensusBase.new p0 ss tc mi th re)).Follows st
        ∧ st.UntouchedWhileNoneQualifies (min ss M.getDataPointsCount)
            (RandomSampleConsensusBase.new p0 ss tc mi th re))
      seed (RandomSampleConsensusBase.new p0 ss tc mi th re)
      ⟨LoopState.Follows.refl _,
        by simp [LoopState.UntouchedWhileNoneQualifies, loop_entry_self,
          RandomSampleConsensusBase.new]⟩
      (fun st t st1 b _ hj hlt hf => ⟨hj.1.follows_step hlt hf, hj.2.untouched_step hf⟩)
  have hrun := estimate_model_of_trial_phase M hres seed _ st hphase
  obtain ⟨-, -, -, f4, f5, -, -, -⟩ := hfol
  have hth : st.self.inlier_dist_thresh_ = th := by rw [f4, loop_entry_self]; rfl
  have hre : st.self.re_estimate_ = re := by rw [f5, loop_entry_self]; rfl
  refine ⟨st, reported M st.self, hphase, hrun, fun hall => ?_⟩
  obtain ⟨h1, h2, h3⟩ := hunt.2 hall
  refine ⟨h1, h2, h3, fun h => ?_, fun h => ?_⟩
  · have hrep : reported M st.self = st.self := by
      unfold reported; rw [if_neg (by rw [hre, h]; simp)]
    rw [hrep, getNumberOfInliers, h3]
    exact ⟨rfl, rfl⟩
  · have hrep : reported M st.self =
        { st.self with
          model_params_ := M.estimateModelParameters st.self.model_inliers_
          model_residuals_ := M.computeResiduals
            (M.estimateModelParameters st.self.model_inliers_)
          model_inliers_ := inlier_indices
            (M.computeResiduals (M.estimateModelParameters st.self.model_inliers_))
            st.self.inlier_dist_thresh_ M.getDataPointsCount } := by
      unfold reported; rw [if_pos (hre.trans h)]
    rw [hrep, h3, hth]
    exact ⟨rfl, rfl, rfl⟩

/-- C9. Assume the shuffle returns a permutation of the vector it is given (and
the model covers the data).  For a run from any object state, with
`c = min(sample_size, n)`: every sample passed to `estimateModelParameters` in
the trial loop is the block of exactly `c` consecutive entries, starting at the
recorded offset, of the permutation in use, which is a permutation of
`0..n-1`; the block ends inside the permutation, its entries are pairwise
distinct and all below `n`; two samples drawn in the same epoch, that is with
no reshuffle between them, share no index; the first trial is cut from the
beginning of the initial permutation; and between consecutive trials a reshuffle
with restart from the beginning happens exactly when fewer than `c` entries
remain behind the previous block, the next block otherwise starting right
behind the previous one in the same permutation. -/
theorem samples_are_disjoint_blocks_of_the_permutation (M : ModelEstimator P R G)
    (hres : M.CoversData) (hsh : M.ShufflePermutes) (seed : G)
    (s : RandomSampleConsensusBase P R) :
    ∃ st,
      trial_phase M seed s = .ok st ∧
      (∀ t ∈ st.trace,
        t.params = M.estimateModelParameters t.sample ∧
        t.perm.Perm (List.range M.getDataPointsCount) ∧
        t.sample = (t.perm.drop t.start).take (min (getSampleSize s) M.getDataPointsCount) ∧
        t.start + min (getSampleSize s) M.getDataPointsCount ≤ t.perm.length ∧
        t.sample.length = min (getSampleSize s) M.getDataPointsCount ∧
        t.sample.Nodup ∧
        ∀ i ∈ t.sample, i < M.getDataPointsCount) ∧
      st.trace.Pairwise (fun a b => a.epoch = b.epoch → a.sample.Disjoint b.sample) ∧
      (∀ t, st.trace.head? = some t → t.epoch = 1 ∧ t.start = 0) ∧
      st.trace.Chain' (Trial.FollowsBlock M.getDataPointsCount
        (min (getSampleSize s) M.getDataPointsCount)) := by
  obtain ⟨st, hphase, -, ⟨hperm, hblk, hep, hch⟩, -⟩ :=
    trial_phase_spec M hres hsh.keepsLength
      (fun st => st.PermsOk M ∧
        st.SamplesAreBlocks M (min s.sample_size_ M.getDataPointsCount) ∧
        st.EpochsOk (min s.sample_size_ M.getDataPointsCount) ∧
        st.ChainOk M (min s.sample_size_ M.getDataPointsCount))
      seed s
      ⟨⟨hsh _ _, by simp [loop_entry_trace]⟩,
        by simp [LoopState.SamplesAreBlocks, loop_entry_self, loop_entry_trace],
        by simp [LoopState.EpochsOk, loop_entry_self, loop_entry_trace],
        by simp [LoopState.ChainOk, loop_entry_self, loop_entry_trace, loop_entry_shuffles,
          loop_entry_sample_start]⟩
      (fun st t st1 b hb hj _ hf =>
        ⟨hj.1.permsOk_step hsh hf, hj.2.1.samplesAreBlocks_step hf,
          hj.2.2.1.epochsOk_step hj.1 hf, hj.2.2.2.chainOk_step hb hf⟩)
  refine ⟨st, hphase, fun t ht => ?_, hep.2.2.2, hch.2.2.1, hch.2.2.2.2⟩
  obtain ⟨p1, p2⟩ := hperm.2 t ht
  obtain ⟨b1, b2, b3⟩ := hblk.2 t ht
  have hle : t.start + min (getSampleSize s) M.getDataPointsCount ≤ t.perm.length := by
    rw [b1]; exact b2
  have hnd := block_nodup_lt t.perm M.getDataPointsCount t.start
    (min s.sample_size_ M.getDataPointsCount) p1
  rw [← b3] at hnd
  exact ⟨p2, p1, b3, hle, by rw [b3]; exact block_length _ _ _ hle, hnd.1, hnd.2⟩

/-! ### Concrete models: witnesses and evaluations of the code -/

theorem sizeModel_residualPerPoint : sizeModel.ResidualPerPoint := fun _ => rfl

theorem sizeModel_shufflePermutes : sizeModel.ShufflePermutes := fun _ l => List.Perm.refl l

/-- Witness for C1: `sizeModel` with sample size 1, target 1, three iterations, threshold 1. -/
theorem first_run_inliers_are_residuals_within_threshold_witness :
    sizeModel.ResidualPerPoint ∧ sizeModel.ShuffleKeepsLength ∧
    ∃ params residuals inliers s1,
      getEstimationResults sizeModel () (RandomSampleConsensusBase.new 7 1 1 3 1 false)
        = .ok ((params, residuals, inliers), s1) ∧
      getModelResiduals sizeModel () (RandomSampleConsensusBase.new 7 1 1 3 1 false)
        = .ok (residuals, s1) ∧
      getModelInliers sizeModel () (RandomSampleConsensusBase.new 7 1 1 3 1 false)
        = .ok (inliers, s1) ∧
      getMaxInlierResidual s1 = 1 ∧
      inliers = (List.range residuals.length).filter (is_inlier residuals 1) ∧
      ∀ i, i ∈ inliers ↔ ∃ r, residuals[i]? = some r ∧ r ≤ 1 :=
  ⟨sizeModel_residualPerPoint, sizeModel_shufflePermutes.keepsLength,
    first_run_inliers_are_residuals_within_threshold sizeModel sizeModel_residualPerPoint
      sizeModel_shufflePermutes.keepsLength () 7 1 1 3 1 false⟩

/-- Witness for C2: `sizeModel` with sample size 1, target 1, three iterations, threshold 1. -/
theorem first_run_reports_earliest_best_trial_witness :
    sizeModel.CoversData ∧ sizeModel.ShuffleKeepsLength ∧
    ∃ st,
      trial_phase sizeModel () (RandomSampleConsensusBase.new 7 1 1 3 1 false) = .ok st ∧
      estimate_model_ sizeModel () (RandomSampleConsensusBase.new 7 1 1 3 1 false)
        = .ok st.self ∧
      getSampleSize st.self = min 1 sizeModel.getDataPointsCount ∧
      st.trace.length = getPerformedIterationsCount st.self ∧
      (∀ t ∈ st.trace, t.Genuine sizeModel 1) ∧
      getNumberOfInliers st.self = best_count (min 1 sizeModel.getDataPointsCount) st.trace ∧
      (0 < best_count (min 1 sizeModel.getDataPointsCount) st.trace →
        ∃ t, earliest_with (best_count (min 1 sizeModel.getDataPointsCount) st.trace) st.trace
            = some t ∧
          t.params = st.self.model_params_ ∧ t.residuals = st.self.model_residuals_ ∧
          t.inliers = st.self.model_inliers_) :=
  ⟨sizeModel_residualPerPoint.covers, sizeModel_shufflePermutes.keepsLength,
    first_run_reports_earliest_best_trial sizeModel sizeModel_residualPerPoint.covers
      sizeModel_shufflePermutes.keepsLength () 7 1 1 3 1⟩

/-- Witness for C3: `sizeModel` has two data points; the requested sample size
is 5 and the requested target is 9. -/
theorem run_completes_with_clamped_sizes_witness :
    sizeModel.CoversData ∧ sizeModel.ShuffleKeepsLength ∧
    ∃ st s1,
      trial_phase sizeModel () (RandomSampleConsensusBase.new 7 5 9 3 1 true) = .ok st ∧
      estimate_model_ sizeModel () (RandomSampleConsensusBase.new 7 5 9 3 1 true) = .ok s1 ∧
      getSampleSize s1 = min (getSampleSize (RandomSampleConsensusBase.new 7 5 9 3 1 true))
        sizeModel.getDataPointsCount ∧
      getTargetInlierCount s1 =
        min (getTargetInlierCount (RandomSampleConsensusBase.new 7 5 9 3 1 true))
          sizeModel.getDataPointsCount ∧
      ∀ t ∈ st.trace,
        t.sample.length = min (getSampleSize (RandomSampleConsensusBase.new 7 5 9 3 1 true))
          sizeModel.getDataPointsCount ∧
        t.start + min (getSampleSize (RandomSampleConsensusBase.new 7 5 9 3 1 true))
          sizeModel.getDataPointsCount ≤ t.perm.length ∧
        t.sample = (t.perm.drop t.start).take
          (min (getSampleSize (RandomSampleConsensusBase.new 7 5 9 3 1 true))
            sizeModel.getDataPointsCount) :=
  ⟨sizeModel_residualPerPoint.covers, sizeModel_shufflePermutes.keepsLength,
    run_completes_with_clamped_sizes sizeModel sizeModel_residualPerPoint.covers
      sizeModel_shufflePermutes.keepsLength () (RandomSampleConsensusBase.new 7 5 9 3 1 true)⟩

/-- Witness for C4: `sizeModel` with sample size 1, target 2 and a cap of three iterations. -/
theorem run_stops_at_cap_or_target_witness :
    sizeModel.CoversData ∧ sizeModel.ShuffleKeepsLength ∧
    ∃ st s1,
      trial_phase sizeModel () (RandomSampleConsensusBase.new 7 1 2 3 1 false) = .ok st ∧
      estimate_model_ sizeModel () (RandomSampleConsensusBase.new 7 1 2 3 1 false) = .ok s1 ∧
      st.trace.length = getPerformedIterationsCount s1 ∧
      getMaxNumberOfIterations s1 =
        getMaxNumberOfIterations (RandomSampleConsensusBase.new 7 1 2 3 1 false) ∧
      getPerformedIterationsCount s1 ≤ getMaxNumberOfIterations s1 ∧
      (getPerformedIterationsCount s1 < getMaxNumberOfIterations s1 →
        min (getTargetInlierCount (RandomSampleConsensusBase.new 7 1 2 3 1 false))
          sizeModel.getDataPointsCount ≤ st.self.model_inliers_.length) :=
  ⟨sizeModel_residualPerPoint.covers, sizeModel_shufflePermutes.keepsLength,
    run_stops_at_cap_or_target sizeModel sizeModel_residualPerPoint.covers
      sizeModel_shufflePermutes.keepsLength () (RandomSampleConsensusBase.new 7 1 2 3 1 false)⟩

/-- Witness for C5: `sizeModel` with re-estimation enabled. -/
theorem final_result_is_refit_of_best_inliers_witness :
    sizeModel.CoversData ∧ sizeModel.ShuffleKeepsLength ∧
    ∃ st s1,
      trial_phase sizeModel () (RandomSampleConsensusBase.new 7 1 2 3 1 true) = .ok st ∧
      estimate_model_ sizeModel () (RandomSampleConsensusBase.new 7 1 2 3 1 true) = .ok s1 ∧
      (getReEstimationStep (RandomSampleConsensusBase.new 7 1 2 3 1 true) = true →
        s1.model_params_ = sizeModel.estimateModelParameters st.self.model_inliers_ ∧
        s1.model_residuals_ = sizeModel.computeResiduals s1.model_params_ ∧
        s1.model_inliers_ = (List.range sizeModel.getDataPointsCount).filter
          (is_inlier s1.model_residuals_
            (getMaxInlierResidual (RandomSampleConsensusBase.new 7 1 2 3 1 true))) ∧
        ∀ i, i ∈ s1.model_inliers_ ↔ i < sizeModel.getDataPointsCount ∧
          ∃ r, s1.model_residuals_[i]? = some r ∧
            r ≤ getMaxInlierResidual (RandomSampleConsensusBase.new 7 1 2 3 1 true)) ∧
      (getReEstimationStep (RandomSampleConsensusBase.new 7 1 2 3 1 true) = false →
        s1 = st.self) :=
  ⟨sizeModel_residualPerPoint.covers, sizeModel_shufflePermutes.keepsLength,
    final_result_is_refit_of_best_inliers sizeModel sizeModel_residualPerPoint.covers
      sizeModel_shufflePermutes.keepsLength () (RandomSampleConsensusBase.new 7 1 2 3 1 true)⟩

theorem emptyFitModel_coversData : emptyFitModel.CoversData := by
  intro p
  simp only [emptyFitModel]
  split <;> simp

theorem emptyFitModel_shuffleKeepsLength : emptyFitModel.ShuffleKeepsLength := fun _ _ => rfl

/-- Counterexample to C8 as stated.  `emptyFitModel`, sample size 2, target 2,
one iteration, threshold 0, re-estimation enabled: the only performed trial has
no inlier, the best-so-far at the exit of the loop is empty, and the run
reports two inliers. -/
theorem refit_of_empty_best_set_reports_inliers :
    (trial_phase emptyFitModel () (RandomSampleConsensusBase.new 7 2 2 1 0 true)).toOption.map
        (fun st => (st.trace.map (fun t => t.inliers), st.self.sample_size_,
          st.self.model_inliers_)) = some ([[]], 2, []) ∧
    (estimate_model_ emptyFitModel ()
        (RandomSampleConsensusBase.new 7 2 2 1 0 true)).toOption.map
        (fun s1 => (s1.model_inliers_, getNumberOfInliers s1)) = some ([0, 1], 2) := by
  decide

/-- Witness for C8 as amended: `emptyFitModel` with re-estimation disabled, where
no trial has two inliers. -/
theorem first_run_without_qualifying_trial_witness :
    emptyFitModel.CoversData ∧ emptyFitModel.ShuffleKeepsLength ∧
    ∃ st s1,
      trial_phase emptyFitModel () (RandomSampleConsensusBase.new 7 2 2 1 0 false) = .ok st ∧
      estimate_model_ emptyFitModel () (RandomSampleConsensusBase.new 7 2 2 1 0 false)
        = .ok s1 ∧
      ((∀ t ∈ st.trace, t.inliers.length < min 2 emptyFitModel.getDataPointsCount) →
        st.self.model_params_ = 7 ∧ st.self.model_residuals_ = [] ∧
        st.self.model_inliers_ = [] ∧
        (false = false → s1 = st.self ∧ getNumberOfInliers s1 = 0) ∧
        (false = true →
          s1.model_params_ = emptyFitModel.estimateModelParameters [] ∧
          s1.model_residuals_ = emptyFitModel.computeResiduals
            (emptyFitModel.estimateModelParameters []) ∧
          s1.model_inliers_ = inlier_indices
            (emptyFitModel.computeResiduals (emptyFitModel.estimateModelParameters []))
            0 emptyFitModel.getDataPointsCount)) :=
  ⟨emptyFitModel_coversData, emptyFitModel_shuffleKeepsLength,
    first_run_without_qualifying_trial emptyFitModel emptyFitModel_coversData
      emptyFitModel_shuffleKeepsLength () 7 2 2 1 0 false⟩

/-- C6 at the failing input.  `sizeModel` with iteration cap 0 and re-estimation
enabled: the first accessor call runs the estimation and leaves the counter at
zero, so the second call, with no setter in between, runs it again and returns
other parameters, residuals and inliers. -/
theorem second_accessor_call_reruns_with_zero_cap :
    getEstimationResults sizeModel () (RandomSampleConsensusBase.new 7 1 1 0 0 true)
      = .ok ((0, [0, 0], [0, 1]),
          { sample_size_ := 1, inlier_count_thresh_ := 1, max_iter_ := 0
            inlier_dist_thresh_ := 0, re_estimate_ := true, iteration_count_ := 0
            model_params_ := 0, model_residuals_ := [0, 0], model_inliers_ := [0, 1] }) ∧
    getEstimationResults sizeModel ()
        { sample_size_ := 1, inlier_count_thresh_ := 1, max_iter_ := 0
          inlier_dist_thresh_ := 0, re_estimate_ := true, iteration_count_ := 0
          model_params_ := 0, model_residuals_ := [0, 0], model_inliers_ := [0, 1] }
      = .ok ((2, [2, 2], []),
          { sample_size_ := 1, inlier_count_thresh_ := 1, max_iter_ := 0
            inlier_dist_thresh_ := 0, re_estimate_ := true, iteration_count_ := 0
            model_params_ := 2, model_residuals_ := [2, 2], model_inliers_ := [] }) :=
  ⟨rfl, rfl⟩

/-- C7 at the failing input.  `sizeModel`, sample size 1, target 2, one
iteration.  A first run with threshold 1 reports the inliers `[0, 1]`.  After
`setMaxInlierResidual(0)` the next accessor call runs again (the counter is 0
before it and 1 after it) and still reports the parameters, residuals and
inliers cached by the first run, while a freshly constructed estimator with
threshold 0 reports the empty result. -/
theorem results_after_setter_depend_on_previous_run :
    getEstimationResults sizeModel () (RandomSampleConsensusBase.new 7 1 2 1 1 false)
      = .ok ((1, [1, 1], [0, 1]),
          { sample_size_ := 1, inlier_count_thresh_ := 2, max_iter_ := 1
            inlier_dist_thresh_ := 1, re_estimate_ := false, iteration_count_ := 1
            model_params_ := 1, model_residuals_ := [1, 1], model_inliers_ := [0, 1] }) ∧
    getEstimationResults sizeModel ()
        (setMaxInlierResidual
          { sample_size_ := 1, inlier_count_thresh_ := 2, max_iter_ := 1
            inlier_dist_thresh_ := 1, re_estimate_ := false, iteration_count_ := 1
            model_params_ := 1, model_residuals_ := [1, 1], model_inliers_ := [0, 1] } 0)
      = .ok ((1, [1, 1], [0, 1]),
          { sample_size_ := 1, inlier_count_thresh_ := 2, max_iter_ := 1
            inlier_dist_thresh_ := 0, re_estimate_ := false, iteration_count_ := 1
            model_params_ := 1, model_residuals_ := [1, 1], model_inliers_ := [0, 1] }) ∧
    getEstimationResults sizeModel () (RandomSampleConsensusBase.new 7 1 2 1 0 false)
      = .ok ((7, [], []),
          { sample_size_ := 1, inlier_count_thresh_ := 2, max_iter_ := 1
            inlier_dist_thresh_ := 0, re_estimate_ := false, iteration_count_ := 1
            model_params_ := 7, model_residuals_ := [], model_inliers_ := [] }) :=
  ⟨rfl, rfl, rfl⟩

theorem reverseModel_coversData : reverseModel.CoversData := fun _ => Nat.le_refl 5

theorem reverseModel_shufflePermutes : reverseModel.ShufflePermutes :=
  fun _ l => List.reverse_perm l

/-- The trials of `reverseModel` with sample size 2 and four iterations: two
blocks of the reversed vector, then a reshuffle and two blocks of the vector
reversed back. -/
theorem reverseModel_trace :
    (trial_phase reverseModel () (RandomSampleConsensusBase.new 0 2 5 4 0 false)).toOption.map
        (fun st => st.trace.map (fun t => (t.epoch, t.start, t.sample)))
      = some [(1, 0, [4, 3]), (1, 2, [2, 1]), (2, 0, [0, 1]), (2, 2, [2, 3])] := by
  decide

/-- Witness for C9: `reverseModel` with sample size 2 and four iterations. -/
theorem samples_are_disjoint_blocks_of_the_permutation_witness :
    reverseModel.CoversData ∧ reverseModel.ShufflePermutes ∧
    ∃ st,
      trial_phase reverseModel () (RandomSampleConsensusBase.new 0 2 5 4 0 false) = .ok st ∧
      (∀ t ∈ st.trace,
        t.params = reverseModel.estimateModelParameters t.sample ∧
        t.perm.Perm (List.range reverseModel.getDataPointsCount) ∧
        t.sample = (t.perm.drop t.start).take
          (min (getSampleSize (RandomSampleConsensusBase.new 0 2 5 4 0 false))
            reverseModel.getDataPointsCount) ∧
        t.start + min (getSampleSize (RandomSampleConsensusBase.new 0 2 5 4 0 false))
          reverseModel.getDataPointsCount ≤ t.perm.length ∧
        t.sample.length = min (getSampleSize (RandomSampleConsensusBase.new 0 2 5 4 0 false))
          reverseModel.getDataPointsCount ∧
        t.sample.Nodup ∧
        ∀ i ∈ t.sample, i < reverseModel.getDataPointsCount) ∧
      st.trace.Pairwise (fun a b => a.epoch = b.epoch → a.sample.Disjoint b.sample) ∧
      (∀ t, st.trace.head? = some t → t.epoch = 1 ∧ t.start = 0) ∧
      st.trace.Chain' (Trial.FollowsBlock reverseModel.getDataPointsCount
        (min (getSampleSize (RandomSampleConsensusBase.new 0 2 5 4 0 false))
          reverseModel.getDataPointsCount)) :=
  ⟨reverseModel_coversData, reverseModel_shufflePermutes,
    samples_are_disjoint_blocks_of_the_permutation reverseModel reverseModel_coversData
      reverseModel_shufflePermutes () (RandomSampleConsensusBase.new 0 2 5 4 0 false)⟩

end theorems

/-! ### Setters and queries -/

/-- C10. Each of the five setters stores its argument, so that the matching
getter returns it, leaves the other four parameters as they were, and resets
the validity counter: afterwards `getPerformedIterationsCount() = 0` and
`targetInlierCountAchieved() = false`.  The queries are functions of the object
alone: the three state queries read `iteration_count_`, `model_inliers_` and
`inlier_count_thresh_`, return no object and take no model, so they cannot
change the state or start a run. -/
theorem setters_store_argument_and_reset_counter {P R : Type}
    (s : RandomSampleConsensusBase P R)
    (n : Nat) (r : R) (b : Bool) :
    (getSampleSize (setSampleSize s n) = n ∧
      getTargetInlierCount (setSampleSize s n) = getTargetInlierCount s ∧
      getMaxNumberOfIterations (setSampleSize s n) = getMaxNumberOfIterations s ∧
      getMaxInlierResidual (setSampleSize s n) = getMaxInlierResidual s ∧
      getReEstimationStep (setSampleSize s n) = getReEstimationStep s ∧
      getPerformedIterationsCount (setSampleSize s n) = 0 ∧
      targetInlierCountAchieved (setSampleSize s n) = false) ∧
    (getTargetInlierCount (setTargetInlierCount s n) = n ∧
      getSampleSize (setTargetInlierCount s n) = getSampleSize s ∧
      getMaxNumberOfIterations (setTargetInlierCount s n) = getMaxNumberOfIterations s ∧
      getMaxInlierResidual (setTargetInlierCount s n) = getMaxInlierResidual s ∧
      getReEstimationStep (setTargetInlierCount s n) = getReEstimationStep s ∧
      getPerformedIterationsCount (setTargetInlierCount s n) = 0 ∧
      targetInlierCountAchieved (setTargetInlierCount s n) = false) ∧
    (getMaxNumberOfIterations (setMaxNumberOfIterations s n) = n ∧
      getSampleSize (setMaxNumberOfIterations s n) = getSampleSize s ∧
      getTargetInlierCount (setMaxNumberOfIterations s n) = getTargetInlierCount s ∧
      getMaxInlierResidual (setMaxNumberOfIterations s n) = getMaxInlierResidual s ∧
      getReEstimationStep (setMaxNumberOfIterations s n) = getReEstimationStep s ∧
      getPerformedIterationsCount (setMaxNumberOfIterations s n) = 0 ∧
      targetInlierCountAchieved (setMaxNumberOfIterations s n) = false) ∧
    (getMaxInlierResidual (setMaxInlierResidual s r) = r ∧
      getSampleSize (setMaxInlierResidual s r) = getSampleSize s ∧
      getTargetInlierCount (setMaxInlierResidual s r) = getTargetInlierCount s ∧
      getMaxNumberOfIterations (setMaxInlierResidual s r) = getMaxNumberOfIterations s ∧
      getReEstimationStep (setMaxInlierResidual s r) = getReEstimationStep s ∧
      getPerformedIterationsCount (setMaxInlierResidual s r) = 0 ∧
      targetInlierCountAchieved (setMaxInlierResidual s r) = false) ∧
    (getReEstimationStep (setReEstimationStep s b) = b ∧
      getSampleSize (setReEstimationStep s b) = getSampleSize s ∧
      getTargetInlierCount (setReEstimationStep s b) = getTargetInlierCount s ∧
      getMaxNumberOfIterations (setReEstimationStep s b) = getMaxNumberOfIterations s ∧
      getMaxInlierResidual (setReEstimationStep s b) = getMaxInlierResidual s ∧
      getPerformedIterationsCount (setReEstimationStep s b) = 0 ∧
      targetInlierCountAchieved (setReEstimationStep s b) = false) ∧
    (getPerformedIterationsCount s = s.iteration_count_ ∧
      getNumberOfInliers s = s.model_inliers_.length ∧
      (targetInlierCountAchieved s = true ↔
        0 < s.iteration_count_ ∧ s.inlier_count_thresh_ ≤ s.model_inliers_.length)) := by
  refine ⟨?_, ?_, ?_, ?_, ?_, rfl, rfl, ?_⟩
  · simp [setSampleSize, getSampleSize, getTargetInlierCount, getMaxNumberOfIterations,
      getMaxInlierResidual, getReEstimationStep, getPerformedIterationsCount,
      targetInlierCountAchieved]
  · simp [setTargetInlierCount, getSampleSize, getTargetInlierCount, getMaxNumberOfIterations,
      getMaxInlierResidual, getReEstimationStep, getPerformedIterationsCount,
      targetInlierCountAchieved]
  · simp [setMaxNumberOfIterations, getSampleSize, getTargetInlierCount,
      getMaxNumberOfIterations, getMaxInlierResidual, getReEstimationStep,
      getPerformedIterationsCount, targetInlierCountAchieved]
  · simp [setMaxInlierResidual, getSampleSize, getTargetInlierCount, getMaxNumberOfIterations,
      getMaxInlierResidual, getReEstimationStep, getPerformedIterationsCount,
      targetInlierCountAchieved]
  · simp [setReEstimationStep, getSampleSize, getTargetInlierCount, getMaxNumberOfIterations,
      getMaxInlierResidual, getReEstimationStep, getPerformedIterationsCount,
      targetInlierCountAchieved]
  · simp [targetInlierCountAchieved]

/-! ### The early stop of the trial loop -/

section early_stop

variable {P R G : Type} [LE R] [DecidableRel (fun a b : R => a ≤ b)]

/-- Rule for the trial loop with a property `J` of the states in which the loop
condition is tested and a property `Q` of the state the loop exits with. -/
theorem trial_loop_post (M : ModelEstimator P R G) (hres : M.CoversData)
    (hsh : M.ShuffleKeepsLength) (J Q : LoopState P R G → Prop)
    (hcont : ∀ st t st1, st.InBounds M → J st →
      st.self.iteration_count_ < st.self.max_iter_ → StepFacts M st t st1 false → J st1)
    (hbreak : ∀ st t st1, st.InBounds M → J st →
      st.self.iteration_count_ < st.self.max_iter_ → StepFacts M st t st1 true → Q st1)
    (hexit : ∀ st, J st → ¬ st.self.iteration_count_ < st.self.max_iter_ → Q st) :
    ∀ (fuel : Nat) (st : LoopState P R G), st.InBounds M → J st →
      st.self.max_iter_ - st.self.iteration_count_ ≤ fuel →
      ∃ st1, trial_loop M fuel st = .ok st1 ∧ Q st1 := by
  intro fuel
  induction fuel with
  | zero =>
    intro st _ hj hfuel
    have hdone : ¬ st.self.iteration_count_ < st.self.max_iter_ := by omega
    exact ⟨st, by simp [trial_loop, hdone], hexit st hj hdone⟩
  | succ fuel ih =>
    intro st hb hj hfuel
    by_cases hlt : st.self.iteration_count_ < st.self.max_iter_
    · obtain ⟨t, st1, b, heq, hfacts⟩ := trial_step_spec M hres hsh st hb
      have hcfg := after_trial_config st.self t
      rw [← hfacts.self_eq] at hcfg
      cases b with
      | true =>
        exact ⟨st1, by simp [trial_loop, hlt, heq], hbreak st t st1 hb hj hlt hfacts⟩
      | false =>
        obtain ⟨st2, h2, hq2⟩ :=
          ih st1 hfacts.inBounds (hcont st t st1 hb hj hlt hfacts) (by omega)
        exact ⟨st2, by simp [trial_loop, hlt, heq, h2], hq2⟩
    · exact ⟨st, by simp [trial_loop, hlt], hexit st hj hlt⟩

omit [LE R] [DecidableRel (fun a b : R => a ≤ b)] in
theorem best_after_concat (init size : Nat) (trace : List (Trial P R)) (t : Trial P R) :
    best_after init size (trace ++ [t]) =
      if size ≤ t.inliers.length ∧ best_after init size trace < t.inliers.length
      then t.inliers.length else best_after init size trace := by
  unfold best_after
  rw [best_count_concat]
  split_ifs <;> omega

omit [LE R] [DecidableRel (fun a b : R => a ≤ b)] in
theorem after_trial_count (s : RandomSampleConsensusBase P R) (t : Trial P R) :
    (after_trial s t).model_inliers_.length =
      if s.sample_size_ ≤ t.inliers.length ∧ s.model_inliers_.length < t.inliers.length
      then t.inliers.length else s.model_inliers_.length := by
  unfold after_trial
  split <;> rfl

theorem LoopState.NoStopMissed.after_pass {M : ModelEstimator P R G} {init size target : Nat}
    {st st1 : LoopState P R G} {t : Trial P R} {b : Bool}
    (h : st.NoStopMissed init size target) (hf : StepFacts M st t st1 b) :
    st1.self.sample_size_ = size ∧ st1.self.inlier_count_thresh_ = target ∧
    st1.self.model_inliers_.length = best_after init size (st.trace ++ [t]) ∧
    (b = false → size ≤ t.inliers.length →
      best_after init size (st.trace ++ [t]) < target) ∧
    (b = false → t.inliers.length < size →
      best_after init size (st.trace ++ [t]) = best_after init size st.trace) := by
  obtain ⟨hsz, htg, hcnt, -, -⟩ := h
  have hcfg := after_trial_config st.self t
  rw [← hf.self_eq] at hcfg
  have hcount : st1.self.model_inliers_.length = best_after init size (st.trace ++ [t]) := by
    rw [hf.self_eq, after_trial_count, best_after_concat, hsz, hcnt]
  refine ⟨hcfg.1.trans hsz, hcfg.2.1.trans htg, hcount, fun hb hq => ?_, fun _ hq => ?_⟩
  · have hno : ¬ (st.self.sample_size_ ≤ t.inliers.length ∧
        st1.self.inlier_count_thresh_ ≤ st1.self.model_inliers_.length) := by
      intro hyes
      have := hf.break_iff.mpr hyes
      rw [hb] at this
      cases this
    rw [hsz, hcfg.2.1, htg, hcount] at hno
    omega
  · rw [best_after_concat]
    have : ¬ (size ≤ t.inliers.length ∧ best_after init size st.trace < t.inliers.length) := by
      omega
    rw [if_neg this]

theorem LoopState.NoStopMissed.continued {M : ModelEstimator P R G} {init size target : Nat}
    {st st1 : LoopState P R G} {t : Trial P R}
    (h : st.NoStopMissed init size target) (hf : StepFacts M st t st1 false) :
    st1.NoStopMissed init size target := by
  obtain ⟨p1, p2, p3, p4, p5⟩ := h.after_pass hf
  obtain ⟨-, -, -, hA, hB⟩ := h
  rw [← hf.trace_eq] at p3
  refine ⟨p1, p2, p3, ?_, ?_⟩
  · intro k x hk hq
    rw [hf.trace_eq] at hk ⊢
    rcases Nat.lt_or_ge k st.trace.length with hlt | hge
    · rw [List.getElem?_append_left hlt] at hk
      rw [List.take_append_of_le_length (by omega)]
      exact hA k x hk hq
    · have hklt : k < (st.trace ++ [t]).length := by
        by_contra hcon
        rw [List.getElem?_eq_none (by omega)] at hk
        cases hk
      have hkeq : k = st.trace.length := by
        rw [List.length_append, List.length_singleton] at hklt
        omega
      subst hkeq
      rw [List.getElem?_concat_length] at hk
      have hxt : t = x := by simpa using hk
      subst hxt
      rw [List.take_of_length_le (by simp)]
      exact p4 rfl hq
  · intro h0 h1 k hk
    rw [hf.trace_eq] at hk ⊢
    rcases Nat.lt_or_ge st.trace.length k with hlt | hge
    · rw [List.take_of_length_le (by rw [List.length_append, List.length_singleton]; omega)]
      rcases Nat.lt_or_ge t.inliers.length size with hq | hq
      · rw [p5 rfl hq]
        have := hB h0 h1 st.trace.length (Nat.le_refl _)
        rwa [List.take_length] at this
      · exact p4 rfl hq
    · rw [List.take_append_of_le_length hge]
      exact hB h0 h1 k hge

theorem LoopState.NoStopMissed.stopped {M : ModelEstimator P R G} {init size target : Nat}
    {st st1 : LoopState P R G} {t : Trial P R} {b : Bool}
    (h : st.NoStopMissed init size target) (hf : StepFacts M st t st1 b) :
    st1.StoppedAtTarget init size target := by
  obtain ⟨-, -, p3, -, -⟩ := h.after_pass hf
  obtain ⟨-, -, -, hA, hB⟩ := h
  rw [← hf.trace_eq] at p3
  refine ⟨p3, ?_, ?_⟩
  · intro k x hk hq htarget
    rw [hf.trace_eq] at hk htarget ⊢
    rw [List.length_append, List.length_singleton]
    rcases Nat.lt_or_ge k st.trace.length with hlt | hge
    · rw [List.getElem?_append_left hlt] at hk
      rw [List.take_append_of_le_length (by omega)] at htarget
      have := hA k x hk hq
      omega
    · have hklt : k < (st.trace ++ [t]).length := by
        by_contra hcon
        rw [List.getElem?_eq_none (by omega)] at hk
        cases hk
      rw [List.length_append, List.length_singleton] at hklt
      omega
  · intro h0 h1 k hk
    rw [hf.trace_eq] at hk ⊢
    rw [List.length_append, List.length_singleton] at hk
    rw [List.take_append_of_le_length (by omega)]
    exact hB h0 h1 k (by omega)

omit [LE R] [DecidableRel (fun a b : R => a ≤ b)] in
theorem LoopState.NoStopMissed.exited {init size target : Nat} {st : LoopState P R G}
    (h : st.NoStopMissed init size target) : st.StoppedAtTarget init size target := by
  obtain ⟨-, -, hcnt, hA, hB⟩ := h
  refine ⟨hcnt, fun k x hk hq htarget => ?_, fun h0 h1 k hk => hB h0 h1 k (by omega)⟩
  have := hA k x hk hq
  omega

/-- C11, as amended.  For every run (any object state, model covering the data,
shuffle keeping the size of the vector), with `c = min(sample_size, n)`, the
clamped target `min(target, n)` and `best_after` the best-so-far inlier count
after a prefix of the performed trials: the loop exits with the best-so-far
count of all performed trials; if a performed trial has at least `c` inliers
and the best-so-far count after it is at least the clamped target, it is the
last performed trial (for every target, 0 included, and every sample size);
and on a run entered with an empty best-so-far and a positive clamped target,
the best-so-far count is below the target after every trial that is followed
by another one. -/
theorem trial_loop_stops_after_qualifying_trial (M : ModelEstimator P R G)
    (hres : M.CoversData) (hsh : M.ShuffleKeepsLength) (seed : G)
    (s : RandomSampleConsensusBase P R) :
    ∃ st,
      trial_phase M seed s = .ok st ∧
      st.self.model_inliers_.length =
        best_after (getNumberOfInliers s) (min (getSampleSize s) M.getDataPointsCount)
          st.trace ∧
      (∀ k t, st.trace[k]? = some t →
        min (getSampleSize s) M.getDataPointsCount ≤ t.inliers.length →
        min (getTargetInlierCount s) M.getDataPointsCount ≤
          best_after (getNumberOfInliers s) (min (getSampleSize s) M.getDataPointsCount)
            (st.trace.take (k + 1)) →
        st.trace.length = k + 1) ∧
      (getNumberOfInliers s = 0 → 1 ≤ min (getTargetInlierCount s) M.getDataPointsCount →
        ∀ k, k < st.trace.length →
          best_after (getNumberOfInliers s) (min (getSampleSize s) M.getDataPointsCount)
            (st.trace.take k) < min (getTargetInlierCount s) M.getDataPointsCount) := by
  have hentry : (loop_entry M seed s).NoStopMissed s.model_inliers_.length
      (min s.sample_size_ M.getDataPointsCount)
      (min s.inlier_count_thresh_ M.getDataPointsCount) := by
    refine ⟨by rw [loop_entry_self], by rw [loop_entry_self], ?_, ?_, ?_⟩
    · rw [loop_entry_self, loop_entry_trace]
      simp [best_after, best_count]
    · intro k t hk
      rw [loop_entry_trace] at hk
      simp at hk
    · intro h0 h1 k _
      rw [loop_entry_trace, h0]
      simp only [List.take_nil, best_after, best_count, List.filter_nil, List.map_nil,
        List.foldr_nil]
      omega
  obtain ⟨st, hphase, hq⟩ :=
    trial_loop_post M hres hsh
      (fun st => st.NoStopMissed s.model_inliers_.length
        (min s.sample_size_ M.getDataPointsCount)
        (min s.inlier_count_thresh_ M.getDataPointsCount))
      (fun st => st.StoppedAtTarget s.model_inliers_.length
        (min s.sample_size_ M.getDataPointsCount)
        (min s.inlier_count_thresh_ M.getDataPointsCount))
      (fun st t st1 _ hj _ hf => hj.continued hf)
      (fun st t st1 _ hj _ hf => hj.stopped hf)
      (fun st hj _ => hj.exited)
      (loop_entry M seed s).self.max_iter_ (loop_entry M seed s)
      (loop_entry_inBounds M hsh seed s) hentry (Nat.sub_le _ _)
  exact ⟨st, hphase, hq.1, hq.2.1, hq.2.2⟩

end early_stop

/-! ### The reported inlier sequence -/

section inlier_order

variable {P R G : Type} [LE R] [DecidableRel (fun a b : R => a ≤ b)]

theorem inlier_indices_sublist (residuals : List R) (thresh : R) (n : Nat) :
    (inlier_indices residuals thresh n).Sublist (List.range n) :=
  List.filter_sublist _

theorem estimate_model_keeps_inliersInRange (M : ModelEstimator P R G) (hres : M.CoversData)
    (hsh : M.ShuffleKeepsLength) (seed : G) (s : RandomSampleConsensusBase P R)
    (hs : InliersInRange M.getDataPointsCount s) :
    ∃ s1, estimate_model_ M seed s = .ok s1 ∧ InliersInRange M.getDataPointsCount s1 := by
  obtain ⟨st, hphase, -, hinv, -⟩ :=
    trial_phase_spec M hres hsh (fun st => InliersInRange M.getDataPointsCount st.self) seed s
      (by
        show (loop_entry M seed s).self.model_inliers_.Sublist _
        rw [loop_entry_self]
        exact hs)
      (by
        intro st t st1 b _ hj _ hf
        show st1.self.model_inliers_.Sublist _
        rw [hf.self_eq]
        unfold after_trial
        split
        · rw [hf.inliers_eq]
          exact inlier_indices_sublist _ _ _
        · exact hj)
  refine ⟨reported M st.self, estimate_model_of_trial_phase M hres seed s st hphase, ?_⟩
  unfold InliersInRange reported
  split
  · exact inlier_indices_sublist _ _ _
  · exact hinv

theorem reachable_inliersInRange (M : ModelEstimator P R G) (hres : M.CoversData)
    (hsh : M.ShuffleKeepsLength) (s : RandomSampleConsensusBase P R) (hs : Reachable M s) :
    InliersInRange M.getDataPointsCount s := by
  induction hs with
  | constructed p0 ss tc mi th re => exact List.nil_sublist _
  | sampleSizeSet v _ ih => exact ih
  | targetInlierCountSet v _ ih => exact ih
  | maxNumberOfIterationsSet v _ ih => exact ih
  | maxInlierResidualSet v _ ih => exact ih
  | reEstimationStepSet v _ ih => exact ih
  | @accessed s0 s1 seed _ hrun ih =>
    unfold ensure_estimated at hrun
    split at hrun
    · obtain ⟨s2, h2, hin⟩ := estimate_model_keeps_inliersInRange M hres hsh seed s0 ih
      rw [h2] at hrun
      cases hrun
      exact hin
    · cases hrun
      exact ih

/-- C18. After every run of `estimate_model_` on an object a program can have
produced (constructed, then any setter and accessor calls), with or without
re-estimation, for every model that covers the data and a shuffle that keeps
the size of the vector: the run succeeds, the reported inlier sequence is
strictly increasing and contains only indices below the data count `n`, so it
has no duplicates and `getNumberOfInliers() ≤ n`. -/
theorem reported_inliers_increasing_below_data_count (M : ModelEstimator P R G)
    (hres : M.CoversData) (hsh : M.ShuffleKeepsLength) (s : RandomSampleConsensusBase P R)
    (hs : Reachable M s) (seed : G) :
    ∃ s1,
      estimate_model_ M seed s = .ok s1 ∧
      s1.model_inliers_.Pairwise (fun i j => i < j) ∧
      (∀ i ∈ s1.model_inliers_, i < M.getDataPointsCount) ∧
      s1.model_inliers_.Nodup ∧
      getNumberOfInliers s1 ≤ M.getDataPointsCount := by
  obtain ⟨s1, hrun, hin⟩ := estimate_model_keeps_inliersInRange M hres hsh seed s
    (reachable_inliersInRange M hres hsh s hs)
  have hsub : s1.model_inliers_.Sublist (List.range M.getDataPointsCount) := hin
  refine ⟨s1, hrun, (List.pairwise_lt_range _).sublist hsub, fun i hi => ?_,
    (List.nodup_range _).sublist hsub, ?_⟩
  · exact List.mem_range.mp (hsub.subset hi)
  · have := hsub.length_le
    rwa [List.length_range] at this

end inlier_order

/-- Witness for C18: `sizeModel`; the object was constructed, its threshold was
set to 0 and its sample size to 1. -/
theorem reported_inliers_increasing_below_data_count_witness :
    sizeModel.CoversData ∧ sizeModel.ShuffleKeepsLength ∧
    Reachable sizeModel
      (setSampleSize (setMaxInlierResidual (RandomSampleConsensusBase.new 7 2 2 3 1 true) 0) 1) ∧
    ∃ s1,
      estimate_model_ sizeModel ()
        (setSampleSize (setMaxInlierResidual (RandomSampleConsensusBase.new 7 2 2 3 1 true) 0) 1)
        = .ok s1 ∧
      s1.model_inliers_.Pairwise (fun i j => i < j) ∧
      (∀ i ∈ s1.model_inliers_, i < sizeModel.getDataPointsCount) ∧
      s1.model_inliers_.Nodup ∧
      getNumberOfInliers s1 ≤ sizeModel.getDataPointsCount :=
  ⟨sizeModel_residualPerPoint.covers, sizeModel_shufflePermutes.keepsLength,
    Reachable.sampleSizeSet 1 (Reachable.maxInlierResidualSet 0
      (Reachable.constructed 7 2 2 3 1 true)),
    reported_inliers_increasing_below_data_count sizeModel sizeModel_residualPerPoint.covers
      sizeModel_shufflePermutes.keepsLength _
      (Reachable.sampleSizeSet 1 (Reachable.maxInlierResidualSet 0
        (Reachable.constructed 7 2 2 3 1 true))) ()⟩

/-- Counterexample to C11 as stated.  `emptyFitModel`, sample size 1, target 0,
threshold 0, re-estimation disabled: every trial has no inlier.  With a cap of
one iteration the loop exits after the first trial with a best-so-far of 0
inliers, which is at least the target 0; with a cap of three iterations and
the same seed a second and a third trial are performed all the same. -/
theorem trials_go_on_with_target_zero :
    (trial_phase emptyFitModel () (RandomSampleConsensusBase.new 7 1 0 1 0 false)).toOption.map
        (fun st => (st.trace.map (fun t => t.inliers), st.self.model_inliers_,
          st.self.inlier_count_thresh_)) = some ([[]], [], 0) ∧
    (trial_phase emptyFitModel () (RandomSampleConsensusBase.new 7 1 0 3 0 false)).toOption.map
        (fun st => (st.trace.map (fun t => t.inliers), st.self.iteration_count_,
          best_after 0 1 (st.trace.take 1))) = some ([[], [], []], 3, 0) := by
  decide

/-- Witness for C11 as amended: `sizeModel`, sample size 1, target 2, three iterations. -/
theorem trial_loop_stops_after_qualifying_trial_witness :
    sizeModel.CoversData ∧ sizeModel.ShuffleKeepsLength ∧
    ∃ st,
      trial_phase sizeModel () (RandomSampleConsensusBase.new 7 1 2 3 1 false) = .ok st ∧
      st.self.model_inliers_.length =
        best_after (getNumberOfInliers (RandomSampleConsensusBase.new 7 1 2 3 1 false))
          (min (getSampleSize (RandomSampleConsensusBase.new 7 1 2 3 1 false))
            sizeModel.getDataPointsCount) st.trace ∧
      (∀ k t, st.trace[k]? = some t →
        min (getSampleSize (RandomSampleConsensusBase.new 7 1 2 3 1 false))
          sizeModel.getDataPointsCount ≤ t.inliers.length →
        min (getTargetInlierCount (RandomSampleConsensusBase.new 7 1 2 3 1 false))
            sizeModel.getDataPointsCount ≤
          best_after (getNumberOfInliers (RandomSampleConsensusBase.new 7 1 2 3 1 false))
            (min (getSampleSize (RandomSampleConsensusBase.new 7 1 2 3 1 false))
              sizeModel.getDataPointsCount) (st.trace.take (k + 1)) →
        st.trace.length = k + 1) ∧
      (getNumberOfInliers (RandomSampleConsensusBase.new 7 1 2 3 1 false) = 0 →
        1 ≤ min (getTargetInlierCount (RandomSampleConsensusBase.new 7 1 2 3 1 false))
          sizeModel.getDataPointsCount →
        ∀ k, k < st.trace.length →
          best_after (getNumberOfInliers (RandomSampleConsensusBase.new 7 1 2 3 1 false))
            (min (getSampleSize (RandomSampleConsensusBase.new 7 1 2 3 1 false))
              sizeModel.getDataPointsCount) (st.trace.take k) <
            min (getTargetInlierCount (RandomSampleConsensusBase.new 7 1 2 3 1 false))
              sizeModel.getDataPointsCount) :=
  ⟨sizeModel_residualPerPoint.covers, sizeModel_shufflePermutes.keepsLength,
    trial_loop_stops_after_qualifying_trial sizeModel sizeModel_residualPerPoint.covers
      sizeModel_shufflePermutes.keepsLength () (RandomSampleConsensusBase.new 7 1 2 3 1 false)⟩


/-! ### The setters of `IterativeClosestPoint` -/

section icp_theorems

open IterativeClosestPoint

variable {F : Type} {K : Nat → Type}

/-- C12. For every engine state and every requested type `c`, with
`correct_correspondences_type_(c)` evaluated on the state the setter is called
in: after `setCorrespondencesType(c)` the accessor `getCorrespondencesType()`
returns the corrected type.  When the corrected type differs from the
previously effective type the three spatial indices are destroyed, the
validity counter is zero and nothing but the indices, the counter and the type
has changed; when it is the previously effective type, no state changes. -/
theorem setCorrespondencesType_applies_correction (H : IcpHelpers F K)
    (s : IterativeClosestPoint F K) (c : CorrespondencesType) :
    getCorrespondencesType (setCorrespondencesType H s c)
      = H.correct_correspondences_type_ s c ∧
    (H.correct_correspondences_type_ s c ≠ getCorrespondencesType s →
      (setCorrespondencesType H s c).kd_tree_3d_ = none ∧
      (setCorrespondencesType H s c).kd_tree_6d_ = none ∧
      (setCorrespondencesType H s c).kd_tree_9d_ = none ∧
      (setCorrespondencesType H s c).getPerformedIterationsCount = 0 ∧
      { setCorrespondencesType H s c with
        kd_tree_3d_ := s.kd_tree_3d_, kd_tree_6d_ := s.kd_tree_6d_
        kd_tree_9d_ := s.kd_tree_9d_, iteration_count_ := s.iteration_count_
        corr_type_ := s.corr_type_ } = s) ∧
    (H.correct_correspondences_type_ s c = getCorrespondencesType s →
      setCorrespondencesType H s c = s) := by
  unfold setCorrespondencesType getCorrespondencesType IterativeClosestPoint.getPerformedIterationsCount
  by_cases h : H.correct_correspondences_type_ s c = s.corr_type_
  · simp [h]
  · simp [h, delete_kd_trees_]

/-- C13. `setMetric` installs a metric only on a destination with normals.  If
the destination normal array is empty, `setMetric(m)` changes no state for
every `m`, so `getMetric()` and the validity counter are unchanged.  If the
destination has normals, then after `setMetric(m)` `getMetric() = m`; when `m`
differs from the previous metric the validity counter is zero and nothing but
the counter and the metric has changed, and when `m` is the previous metric no
state changes. -/
theorem setMetric_needs_destination_normals (s : IterativeClosestPoint F K) (m : Metric) :
    (s.dst_normals_.length = 0 →
      setMetric s m = s ∧ getMetric (setMetric s m) = getMetric s ∧
      (setMetric s m).getPerformedIterationsCount = s.getPerformedIterationsCount) ∧
    (0 < s.dst_normals_.length →
      getMetric (setMetric s m) = m ∧
      (m ≠ getMetric s →
        (setMetric s m).getPerformedIterationsCount = 0 ∧
        { setMetric s m with iteration_count_ := s.iteration_count_, metric_ := s.metric_ }
          = s) ∧
      (m = getMetric s → setMetric s m = s)) := by
  unfold setMetric getMetric IterativeClosestPoint.getPerformedIterationsCount
  refine ⟨fun h0 => ?_, fun hpos => ?_⟩
  · have : ¬ (s.dst_normals_.length > 0 ∧ m ≠ s.metric_) := by omega
    simp [this]
  · by_cases hm : m = s.metric_
    · simp [hm]
    · simp [hm, hpos]

/-- C14. Each purely numeric setter stores its argument, resets the validity
counter, so that `IterativeClosestPoint.getPerformedIterationsCount() = 0` and `hasConverged() =
false` whatever `has_converged_` holds, and changes nothing else: putting the
old counter and the old value of the parameter back gives the old object, and
in particular the three spatial-index handles, the correspondence type and the
metric are unchanged. -/
theorem numeric_setters_store_and_invalidate (s : IterativeClosestPoint F K) (x : F) (n : Nat) :
    (getMaxCorrespondenceDistance (setMaxCorrespondenceDistance s x) = x ∧
      (setMaxCorrespondenceDistance s x).getPerformedIterationsCount = 0 ∧
      hasConverged (setMaxCorrespondenceDistance s x) = false ∧
      (setMaxCorrespondenceDistance s x).kd_tree_3d_ = s.kd_tree_3d_ ∧
      (setMaxCorrespondenceDistance s x).kd_tree_6d_ = s.kd_tree_6d_ ∧
      (setMaxCorrespondenceDistance s x).kd_tree_9d_ = s.kd_tree_9d_ ∧
      getCorrespondencesType (setMaxCorrespondenceDistance s x) = getCorrespondencesType s ∧
      getMetric (setMaxCorrespondenceDistance s x) = getMetric s ∧
      { setMaxCorrespondenceDistance s x with
        iteration_count_ := s.iteration_count_, corr_dist_thres_ := s.corr_dist_thres_ } = s) ∧
    (getCorrespondencesFraction (setCorrespondencesFraction s x) = x ∧
      (setCorrespondencesFraction s x).getPerformedIterationsCount = 0 ∧
      hasConverged (setCorrespondencesFraction s x) = false ∧
      (setCorrespondencesFraction s x).kd_tree_3d_ = s.kd_tree_3d_ ∧
      (setCorrespondencesFraction s x).kd_tree_6d_ = s.kd_tree_6d_ ∧
      (setCorrespondencesFraction s x).kd_tree_9d_ = s.kd_tree_9d_ ∧
      getCorrespondencesType (setCorrespondencesFraction s x) = getCorrespondencesType s ∧
      getMetric (setCorrespondencesFraction s x) = getMetric s ∧
      { setCorrespondencesFraction s x with
        iteration_count_ := s.iteration_count_, corr_fraction_ := s.corr_fraction_ } = s) ∧
    ((s.setMaxNumberOfIterations n).getMaxNumberOfIterations = n ∧
      (s.setMaxNumberOfIterations n).getPerformedIterationsCount = 0 ∧
      hasConverged (s.setMaxNumberOfIterations n) = false ∧
      (s.setMaxNumberOfIterations n).kd_tree_3d_ = s.kd_tree_3d_ ∧
      (s.setMaxNumberOfIterations n).kd_tree_6d_ = s.kd_tree_6d_ ∧
      (s.setMaxNumberOfIterations n).kd_tree_9d_ = s.kd_tree_9d_ ∧
      getCorrespondencesType (s.setMaxNumberOfIterations n) = getCorrespondencesType s ∧
      getMetric (s.setMaxNumberOfIterations n) = getMetric s ∧
      { s.setMaxNumberOfIterations n with
        iteration_count_ := s.iteration_count_, max_iter_ := s.max_iter_ } = s) ∧
    (getMaxNumberOfOptimizationStepIterations
        (setMaxNumberOfOptimizationStepIterations s n) = n ∧
      (setMaxNumberOfOptimizationStepIterations s n).getPerformedIterationsCount = 0 ∧
      hasConverged (setMaxNumberOfOptimizationStepIterations s n) = false ∧
      (setMaxNumberOfOptimizationStepIterations s n).kd_tree_3d_ = s.kd_tree_3d_ ∧
      (setMaxNumberOfOptimizationStepIterations s n).kd_tree_6d_ = s.kd_tree_6d_ ∧
      (setMaxNumberOfOptimizationStepIterations s n).kd_tree_9d_ = s.kd_tree_9d_ ∧
      getCorrespondencesType (setMaxNumberOfOptimizationStepIterations s n)
        = getCorrespondencesType s ∧
      getMetric (setMaxNumberOfOptimizationStepIterations s n) = getMetric s ∧
      { setMaxNumberOfOptimizationStepIterations s n with
        iteration_count_ := s.iteration_count_
        max_estimation_iter_ := s.max_estimation_iter_ } = s) ∧
    (getConvergenceTolerance (setConvergenceTolerance s x) = x ∧
      (setConvergenceTolerance s x).getPerformedIterationsCount = 0 ∧
      hasConverged (setConvergenceTolerance s x) = false ∧
      (setConvergenceTolerance s x).kd_tree_3d_ = s.kd_tree_3d_ ∧
      (setConvergenceTolerance s x).kd_tree_6d_ = s.kd_tree_6d_ ∧
      (setConvergenceTolerance s x).kd_tree_9d_ = s.kd_tree_9d_ ∧
      getCorrespondencesType (setConvergenceTolerance s x) = getCorrespondencesType s ∧
      getMetric (setConvergenceTolerance s x) = getMetric s ∧
      { setConvergenceTolerance s x with
        iteration_count_ := s.iteration_count_, convergence_tol_ := s.convergence_tol_ } = s) := by
  refine ⟨?_, ?_, ?_, ?_, ?_⟩
  · simp [setMaxCorrespondenceDistance, getMaxCorrespondenceDistance,
      IterativeClosestPoint.getPerformedIterationsCount, hasConverged, getCorrespondencesType, getMetric]
  · simp [setCorrespondencesFraction, getCorrespondencesFraction,
      IterativeClosestPoint.getPerformedIterationsCount, hasConverged, getCorrespondencesType, getMetric]
  · simp [IterativeClosestPoint.setMaxNumberOfIterations,
      IterativeClosestPoint.getMaxNumberOfIterations,
      IterativeClosestPoint.getPerformedIterationsCount, hasConverged, getCorrespondencesType, getMetric]
  · simp [setMaxNumberOfOptimizationStepIterations, getMaxNumberOfOptimizationStepIterations,
      IterativeClosestPoint.getPerformedIterationsCount, hasConverged, getCorrespondencesType, getMetric]
  · simp [setConvergenceTolerance, getConvergenceTolerance,
      IterativeClosestPoint.getPerformedIterationsCount, hasConverged, getCorrespondencesType, getMetric]

/-- The three explicit tests of the correspondence weight setters are the tests
"multi-channel type that contains the channel". -/
theorem weight_tests_are_active_channel (c : CorrespondencesType) :
    ((c = CorrespondencesType.POINTS_NORMALS ∨ c = CorrespondencesType.POINTS_COLORS ∨
        c = CorrespondencesType.POINTS_NORMALS_COLORS) ↔
      (c.multi_channel && c.channels.1) = true) ∧
    ((c = CorrespondencesType.POINTS_NORMALS ∨ c = CorrespondencesType.NORMALS_COLORS ∨
        c = CorrespondencesType.POINTS_NORMALS_COLORS) ↔
      (c.multi_channel && c.channels.2.1) = true) ∧
    ((c = CorrespondencesType.POINTS_COLORS ∨ c = CorrespondencesType.NORMALS_COLORS ∨
        c = CorrespondencesType.POINTS_NORMALS_COLORS) ↔
      (c.multi_channel && c.channels.2.2) = true) := by
  cases c <;> simp [CorrespondencesType.multi_channel, CorrespondencesType.channels]

/-- C15. Every weight setter stores the new weight.  A correspondence weight
setter destroys the three spatial indices and resets the validity counter when
the effective correspondence type is a multi-channel type that contains the
channel of the weight, and then nothing but the indices, the counter and the
weight has changed; otherwise nothing but the weight has changed.  A metric
weight setter resets the validity counter when the metric is `COMBINED` and
leaves it otherwise, and never changes anything but the counter and the
weight, so it never destroys the indices. -/
theorem weight_setters_invalidate_when_weight_is_active (s : IterativeClosestPoint F K)
    (w : F) :
    (getCorrespondencePointWeight (setCorrespondencePointWeight s w) = w ∧
      ((s.corr_type_.multi_channel && s.corr_type_.channels.1) = true →
        (setCorrespondencePointWeight s w).kd_tree_3d_ = none ∧
        (setCorrespondencePointWeight s w).kd_tree_6d_ = none ∧
        (setCorrespondencePointWeight s w).kd_tree_9d_ = none ∧
        (setCorrespondencePointWeight s w).getPerformedIterationsCount = 0 ∧
        { setCorrespondencePointWeight s w with
          kd_tree_3d_ := s.kd_tree_3d_, kd_tree_6d_ := s.kd_tree_6d_
          kd_tree_9d_ := s.kd_tree_9d_, iteration_count_ := s.iteration_count_
          point_dist_weight_ := s.point_dist_weight_ } = s) ∧
      ((s.corr_type_.multi_channel && s.corr_type_.channels.1) = false →
        { setCorrespondencePointWeight s w with
          point_dist_weight_ := s.point_dist_weight_ } = s)) ∧
    (getCorrespondenceNormalWeight (setCorrespondenceNormalWeight s w) = w ∧
      ((s.corr_type_.multi_channel && s.corr_type_.channels.2.1) = true →
        (setCorrespondenceNormalWeight s w).kd_tree_3d_ = none ∧
        (setCorrespondenceNormalWeight s w).kd_tree_6d_ = none ∧
        (setCorrespondenceNormalWeight s w).kd_tree_9d_ = none ∧
        (setCorrespondenceNormalWeight s w).getPerformedIterationsCount = 0 ∧
        { setCorrespondenceNormalWeight s w with
          kd_tree_3d_ := s.kd_tree_3d_, kd_tree_6d_ := s.kd_tree_6d_
          kd_tree_9d_ := s.kd_tree_9d_, iteration_count_ := s.iteration_count_
          normal_dist_weight_ := s.normal_dist_weight_ } = s) ∧
      ((s.corr_type_.multi_channel && s.corr_type_.channels.2.1) = false →
        { setCorrespondenceNormalWeight s w with
          normal_dist_weight_ := s.normal_dist_weight_ } = s)) ∧
    (getCorrespondenceColorWeight (setCorrespondenceColorWeight s w) = w ∧
      ((s.corr_type_.multi_channel && s.corr_type_.channels.2.2) = true →
        (setCorrespondenceColorWeight s w).kd_tree_3d_ = none ∧
        (setCorrespondenceColorWeight s w).kd_tree_6d_ = none ∧
        (setCorrespondenceColorWeight s w).kd_tree_9d_ = none ∧
        (setCorrespondenceColorWeight s w).getPerformedIterationsCount = 0 ∧
        { setCorrespondenceColorWeight s w with
          kd_tree_3d_ := s.kd_tree_3d_, kd_tree_6d_ := s.kd_tree_6d_
          kd_tree_9d_ := s.kd_tree_9d_, iteration_count_ := s.iteration_count_
          color_dist_weight_ := s.color_dist_weight_ } = s) ∧
      ((s.corr_type_.multi_channel && s.corr_type_.channels.2.2) = false →
        { setCorrespondenceColorWeight s w with
          color_dist_weight_ := s.color_dist_weight_ } = s)) ∧
    (getPointToPointMetricWeight (setPointToPointMetricWeight s w) = w ∧
      (getMetric s = Metric.COMBINED →
        (setPointToPointMetricWeight s w).getPerformedIterationsCount = 0) ∧
      (getMetric s ≠ Metric.COMBINED →
        (setPointToPointMetricWeight s w).getPerformedIterationsCount
          = s.getPerformedIterationsCount) ∧
      { setPointToPointMetricWeight s w with
        iteration_count_ := s.iteration_count_
        point_to_point_weight_ := s.point_to_point_weight_ } = s) ∧
    (getPointToPlaneMetricWeight (setPointToPlaneMetricWeight s w) = w ∧
      (getMetric s = Metric.COMBINED →
        (setPointToPlaneMetricWeight s w).getPerformedIterationsCount = 0) ∧
      (getMetric s ≠ Metric.COMBINED →
        (setPointToPlaneMetricWeight s w).getPerformedIterationsCount
          = s.getPerformedIterationsCount) ∧
      { setPointToPlaneMetricWeight s w with
        iteration_count_ := s.iteration_count_
        point_to_plane_weight_ := s.point_to_plane_weight_ } = s) := by
  obtain ⟨hp, hn, hc⟩ := weight_tests_are_active_channel s.corr_type_
  refine ⟨⟨?_, fun h => ?_, fun h => ?_⟩, ⟨?_, fun h => ?_, fun h => ?_⟩,
    ⟨?_, fun h => ?_, fun h => ?_⟩, ⟨?_, fun h => ?_, fun h => ?_, ?_⟩,
    ⟨?_, fun h => ?_, fun h => ?_, ?_⟩⟩
  · unfold setCorrespondencePointWeight getCorrespondencePointWeight; rfl
  · have h1 := hp.mpr h
    simp [setCorrespondencePointWeight, h1, delete_kd_trees_,
      IterativeClosestPoint.getPerformedIterationsCount]
  · have h1 : ¬ _ := fun hx => by rw [hp.mp hx] at h; cases h
    simp [setCorrespondencePointWeight, h1]
  · unfold setCorrespondenceNormalWeight getCorrespondenceNormalWeight; rfl
  · have h1 := hn.mpr h
    simp [setCorrespondenceNormalWeight, h1, delete_kd_trees_,
      IterativeClosestPoint.getPerformedIterationsCount]
  · have h1 : ¬ _ := fun hx => by rw [hn.mp hx] at h; cases h
    simp [setCorrespondenceNormalWeight, h1]
  · unfold setCorrespondenceColorWeight getCorrespondenceColorWeight; rfl
  · have h1 := hc.mpr h
    simp [setCorrespondenceColorWeight, h1, delete_kd_trees_,
      IterativeClosestPoint.getPerformedIterationsCount]
  · have h1 : ¬ _ := fun hx => by rw [hc.mp hx] at h; cases h
    simp [setCorrespondenceColorWeight, h1]
  · unfold setPointToPointMetricWeight getPointToPointMetricWeight; rfl
  · have h1 : s.metric_ = Metric.COMBINED := h
    simp [setPointToPointMetricWeight, h1, IterativeClosestPoint.getPerformedIterationsCount]
  · have h1 : ¬ s.metric_ = Metric.COMBINED := h
    simp [setPointToPointMetricWeight, h1, IterativeClosestPoint.getPerformedIterationsCount]
  · unfold setPointToPointMetricWeight
    split <;> rfl
  · unfold setPointToPlaneMetricWeight getPointToPlaneMetricWeight; rfl
  · have h1 : s.metric_ = Metric.COMBINED := h
    simp [setPointToPlaneMetricWeight, h1, IterativeClosestPoint.getPerformedIterationsCount]
  · have h1 : ¬ s.metric_ = Metric.COMBINED := h
    simp [setPointToPlaneMetricWeight, h1, IterativeClosestPoint.getPerformedIterationsCount]
  · unfold setPointToPlaneMetricWeight
    split <;> rfl

/-- C16. For every matrix `R` and vector `t`, after `setInitialTransformation(R, t)`
the accessor `getInitialTransformation` returns the pair of
`orthonormalize_rotation_(R)`, evaluated on the object with its counter
already reset, and `t` itself; the validity counter is zero; and nothing but
the counter, the initial rotation and the initial translation has changed. -/
theorem setInitialTransformation_stores_orthonormalized_rotation (H : IcpHelpers F K)
    (s : IterativeClosestPoint F K) (rot_mat : Fin 3 → Fin 3 → F) (t_vec : Fin 3 → F) :
    getInitialTransformation (setInitialTransformation H s rot_mat t_vec)
      = (H.orthonormalize_rotation_ { s with iteration_count_ := 0 } rot_mat, t_vec) ∧
    (setInitialTransformation H s rot_mat t_vec).getPerformedIterationsCount = 0 ∧
    { setInitialTransformation H s rot_mat t_vec with
      iteration_count_ := s.iteration_count_, rot_mat_init_ := s.rot_mat_init_
      t_vec_init_ := s.t_vec_init_ } = s :=
  ⟨rfl, rfl, rfl⟩

end icp_theorems

/-! ### The matrix readers and writers of `io.hpp` -/

section io_theorems

variable {S : Type}

/-- C17 at the failing input.  The file has the two lines `1 2 ` and `3 4 `, each
with one space after the values.  After the last value of a line `eofbit` is
still clear, so the loop extracts once more; that extraction fails at the end
of the line and leaves `d`, and the last value is stored a second time.  The
reader returns a matrix with two rows and three columns, `(1 2 2)` and
`(3 4 4)` (in column-major storage `1 3 2 4 2 4`).  Without the trailing spaces
it returns the two by two matrix of the values.  A carriage return before the
end of each line has the effect of the trailing space. -/
theorem trailing_space_adds_a_column :
    readEigenMatrixFromFile_text parse_decimal 0 0 "1 2 \n3 4 \n".toList
        { rows := 0, cols := 0, data := [], row_major := false }
      = .ok { rows := 2, cols := 3, data := [1, 3, 2, 4, 2, 4], row_major := false } ∧
    readEigenMatrixFromFile_text parse_decimal 0 0 "1 2\n3 4\n".toList
        { rows := 0, cols := 0, data := [], row_major := false }
      = .ok { rows := 2, cols := 2, data := [1, 3, 2, 4], row_major := false } ∧
    readEigenMatrixFromFile_text parse_decimal 0 0 "1 2\r\n3 4\r\n".toList
        { rows := 0, cols := 0, data := [], row_major := false }
      = .ok { rows := 2, cols := 3, data := [1, 3, 2, 4, 2, 4], row_major := false } :=
  ⟨rfl, rfl, rfl⟩

/-- C19 at the failing input.  For the empty file `getline` fails at once, so
`n_rows` is 0 when `v.size() / n_rows` is computed: the reader divides by zero,
whatever the scalar type, the initial value of `d` and the matrix are. -/
theorem empty_text_file_divides_by_zero (parse : List Char → S) (d0 uninit : S)
    (matrix : EigenMatrix S) :
    readEigenMatrixFromFile_text parse d0 uninit [] matrix = .error .divisionByZero :=
  rfl

theorem extract_progress (parse : List Char → S) (st : LineStream) (d : S) :
    (extract parse st d).1.eofbit = true ∨
      (extract parse st d).1.rest.length < st.rest.length := by
  unfold extract
  cases hdrop : st.rest.dropWhile is_space with
  | nil => exact Or.inl rfl
  | cons c cs =>
    right
    have hc : is_space c = false := by
      have := List.head_dropWhile_not is_space st.rest (by rw [hdrop]; simp)
      simpa [hdrop] using this
    have h1 : (c :: cs).length ≤ st.rest.length := by
      rw [← hdrop]
      exact (List.dropWhile_sublist is_space).length_le
    have h2 : ((c :: cs).dropWhile (fun x => !is_space x)).length ≤ cs.length := by
      rw [List.dropWhile_cons_of_pos (by simp [hc])]
      exact (List.dropWhile_sublist _).length_le
    simp only [List.length_cons] at h1
    show ((c :: cs).dropWhile (fun x => !is_space x)).length < st.rest.length
    omega

/-- The bound `line.length + 1` given to the loop over the values of a line is
never reached: the loop ends with `eofbit` set. -/
theorem read_values_ok (parse : List Char → S) :
    ∀ (fuel : Nat) (st : LineStream) (d : S) (v : List S),
      st.eofbit = true ∨ st.rest.length < fuel →
      ∃ r, read_values parse fuel st d v = .ok r := by
  intro fuel
  induction fuel with
  | zero =>
    intro st d v h
    rcases h with h | h
    · exact ⟨(d, v), by simp [read_values, h]⟩
    · omega
  | succ fuel ih =>
    intro st d v h
    by_cases he : st.eofbit = true
    · exact ⟨(d, v), by simp [read_values, he]⟩
    · rcases h with h | h
      · exact absurd h he
      · have hnext : (extract parse st d).1.eofbit = true ∨
            (extract parse st d).1.rest.length < fuel := by
          rcases extract_progress parse st d with hp | hp
          · exact Or.inl hp
          · exact Or.inr (by omega)
        obtain ⟨r, hr⟩ := ih (extract parse st d).1 (extract parse st d).2
          (v ++ [(extract parse st d).2]) hnext
        exact ⟨r, by simp [read_values, he, hr]⟩

theorem read_lines_ok (parse : List Char → S) :
    ∀ (lines : List (List Char)) (n_rows : Nat) (d : S) (v : List S),
      ∃ d1 v1, read_lines parse lines n_rows d v = .ok (n_rows + lines.length, d1, v1) := by
  intro lines
  induction lines with
  | nil => intro n_rows d v; exact ⟨d, v, rfl⟩
  | cons line lines ih =>
    intro n_rows d v
    obtain ⟨⟨d1, v1⟩, hr⟩ := read_values_ok parse (line.length + 1)
      { rest := line, eofbit := false } d v (Or.inr (Nat.lt_succ_self _))
    obtain ⟨d2, v2, h2⟩ := ih (n_rows + 1) d1 v1
    refine ⟨d2, v2, ?_⟩
    rw [read_lines, hr]
    simp only [h2, List.length_cons]
    congr 2
    omega

theorem fill_row_ok (v : List S) (n_cols i : Nat) :
    ∀ (m j : Nat) (matrix : EigenMatrix S), i * n_cols + j + m ≤ v.length →
      ∃ r, fill_row v n_cols i m j matrix = .ok r ∧
        r.rows = matrix.rows ∧ r.cols = matrix.cols := by
  intro m
  induction m with
  | zero => intro j matrix _; exact ⟨matrix, rfl, rfl, rfl⟩
  | succ m ih =>
    intro j matrix h
    have hlt : i * n_cols + j < v.length := by omega
    obtain ⟨r, hr, h1, h2⟩ := ih (j + 1) (matrix.set_coeff i j v[i * n_cols + j]) (by omega)
    refine ⟨r, ?_, h1, h2⟩
    rw [fill_row, List.getElem?_eq_getElem hlt]
    exact hr

theorem fill_rows_ok (v : List S) (n_cols : Nat) :
    ∀ (m i : Nat) (matrix : EigenMatrix S), (i + m) * n_cols ≤ v.length →
      ∃ r, fill_rows v n_cols m i matrix = .ok r ∧
        r.rows = matrix.rows ∧ r.cols = matrix.cols := by
  intro m
  induction m with
  | zero => intro i matrix _; exact ⟨matrix, rfl, rfl, rfl⟩
  | succ m ih =>
    intro i matrix h
    have hrow : i * n_cols + 0 + n_cols ≤ v.length := by
      have : (i + 1) * n_cols ≤ (i + (m + 1)) * n_cols :=
        Nat.mul_le_mul_right _ (by omega)
      rw [Nat.add_mul, Nat.one_mul] at this
      omega
    obtain ⟨r1, hr1, a1, a2⟩ := fill_row_ok v n_cols i n_cols 0 matrix hrow
    have hidx : i + 1 + m = i + (m + 1) := by omega
    obtain ⟨r, hr, b1, b2⟩ := ih (i + 1) r1 (by rw [hidx]; exact h)
    refine ⟨r, ?_, b1.trans a1, b2.trans a2⟩
    rw [fill_rows, hr1]
    exact hr

/-- For a file with at least one line the text reader returns a matrix with one
row per line: no division by zero, and every read `v[i * n_cols + j]` of the
fill loop is inside `v`. -/
theorem text_read_succeeds_with_a_line (parse : List Char → S) (d0 uninit : S)
    (file : List Char) (matrix : EigenMatrix S) (h : get_lines file none ≠ []) :
    ∃ r, readEigenMatrixFromFile_text parse d0 uninit file matrix = .ok r ∧
      r.rows = (get_lines file none).length := by
  obtain ⟨d1, v1, hread⟩ := read_lines_ok parse (get_lines file none) 0 d0 []
  have hpos : 0 + (get_lines file none).length ≠ 0 := by
    rw [Nat.zero_add]
    exact fun hz => h (List.length_eq_zero.mp hz)
  obtain ⟨r, hr, h1, -⟩ := fill_rows_ok v1 (v1.length / (0 + (get_lines file none).length))
    (0 + (get_lines file none).length) 0
    (matrix.resize (0 + (get_lines file none).length)
      (v1.length / (0 + (get_lines file none).length)) uninit)
    (by rw [Nat.zero_add, Nat.zero_add]; exact Nat.mul_div_le _ _)
  refine ⟨r, ?_, ?_⟩
  · unfold readEigenMatrixFromFile_text
    rw [hread]
    simp only [hpos, if_false]
    exact hr
  · rw [h1]
    simp [EigenMatrix.resize]

theorem le_bytes_length (k n : Nat) : (le_bytes k n).length = k := by
  induction k generalizing n with
  | zero => rfl
  | succ k ih => simp [le_bytes, ih]

theorem le_value_le_bytes (k n : Nat) : le_value (le_bytes k n) = n % 256 ^ k := by
  induction k generalizing n with
  | zero => simp [le_bytes, le_value, Nat.mod_one]
  | succ k ih =>
    rw [le_bytes, le_value, ih, pow_succ, Nat.mul_comm (256 ^ k) 256, Nat.mod_mul]

theorem length_flatMap_encode (L : ScalarLayout S) (hL : L.Faithful) (xs : List S) :
    (xs.flatMap L.encode).length = xs.length * L.width := by
  induction xs with
  | nil => simp
  | cons x xs ih =>
    rw [List.flatMap_cons, List.length_append, ih, hL.1 x, List.length_cons]
    ring

theorem decode_scalars_flatMap_encode (L : ScalarLayout S) (hL : L.Faithful) (xs : List S)
    (rest : List Nat) :
    decode_scalars L xs.length (xs.flatMap L.encode ++ rest) = xs := by
  induction xs with
  | nil => rfl
  | cons x xs ih =>
    rw [List.flatMap_cons, List.length_cons, decode_scalars, List.append_assoc,
      List.take_left' (hL.1 x), List.drop_left' (hL.1 x), hL.2 x, ih]

/-- C20. Let `L` be a faithful scalar layout and `M` a matrix that exists in
memory.  The file `writeEigenMatrixToFile` writes in binary mode consists of
the eight bytes of the row count, the eight bytes of the column count and the
bytes of the `rows * cols` scalars of `data()` one after the other, with
nothing between or after them, so it has `16 + rows * cols * sizeof(Scalar)`
bytes.  Reading that file in binary mode into any matrix of the same type (the
same storage order) succeeds and yields `M`: the same row count, the same
column count and the same coefficient at every position. -/
theorem binary_write_then_read_gives_the_matrix (L : ScalarLayout S) (hL : L.Faithful)
    (M target : EigenMatrix S) (hM : M.WellFormed L.width)
    (htype : target.row_major = M.row_major) :
    writeEigenMatrixToFile_binary L M
      = le_bytes 8 M.rows ++ le_bytes 8 M.cols ++ M.data.flatMap L.encode ∧
    (writeEigenMatrixToFile_binary L M).length = 16 + M.rows * M.cols * L.width ∧
    readEigenMatrixFromFile_binary L (writeEigenMatrixToFile_binary L M) target = .ok M ∧
    ∀ result, readEigenMatrixFromFile_binary L (writeEigenMatrixToFile_binary L M) target
        = .ok result →
      result.rows = M.rows ∧ result.cols = M.cols ∧
      ∀ i j, result.coeff i j = M.coeff i j := by
  obtain ⟨hlen, hrows, hcols, hsize, hbytes⟩ := hM
  have h64 : (2 : Nat) ^ 64 = 256 ^ 8 := by norm_num
  have hpay : (M.data.flatMap L.encode).length = M.rows * M.cols * L.width := by
    rw [length_flatMap_encode L hL, hlen]
  have hfile : writeEigenMatrixToFile_binary L M
      = le_bytes 8 M.rows ++ le_bytes 8 M.cols ++ M.data.flatMap L.encode := by
    unfold writeEigenMatrixToFile_binary
    rw [Nat.mod_eq_of_lt (by omega : M.rows < 2 ^ 64),
      Nat.mod_eq_of_lt (by omega : M.cols < 2 ^ 64), Nat.mod_eq_of_lt hbytes,
      List.take_of_length_le (by omega)]
  have hflen : (writeEigenMatrixToFile_binary L M).length = 16 + M.rows * M.cols * L.width := by
    rw [hfile, List.length_append, List.length_append, le_bytes_length, le_bytes_length, hpay]
  have hr : le_value ((writeEigenMatrixToFile_binary L M).take 8) = M.rows := by
    rw [hfile, List.append_assoc, List.take_left' (le_bytes_length 8 _), le_value_le_bytes,
      ← h64, Nat.mod_eq_of_lt (by omega)]
  have hc : le_value (((writeEigenMatrixToFile_binary L M).drop 8).take 8) = M.cols := by
    rw [hfile, List.append_assoc, List.drop_left' (le_bytes_length 8 _),
      List.take_left' (le_bytes_length 8 _), le_value_le_bytes, ← h64,
      Nat.mod_eq_of_lt (by omega)]
  have hd : (writeEigenMatrixToFile_binary L M).drop 16 = M.data.flatMap L.encode := by
    rw [hfile]
    exact List.drop_left' (by rw [List.length_append, le_bytes_length, le_bytes_length])
  have hread : readEigenMatrixFromFile_binary L (writeEigenMatrixToFile_binary L M) target
      = .ok M := by
    unfold readEigenMatrixFromFile_binary
    rw [if_neg (by omega)]
    simp only [hr, hc, hd, hpay]
    rw [if_neg (by omega), if_neg (by omega), if_neg (by omega), ← hlen]
    have := decode_scalars_flatMap_encode L hL M.data []
    rw [List.append_nil] at this
    rw [this, htype]
  refine ⟨hfile, hflen, hread, fun result hres => ?_⟩
  rw [hread] at hres
  cases hres
  exact ⟨rfl, rfl, fun _ _ => rfl⟩

end io_theorems

theorem boolLayout_faithful : boolLayout.Faithful :=
  ⟨fun _ => rfl, fun x => by cases x <;> rfl⟩

/-- Witness for C20: the two by two matrix of `bool` with the rows `(true, false)`
and `(false, true)`, read into an empty matrix of the same type. -/
theorem binary_write_then_read_gives_the_matrix_witness :
    boolLayout.Faithful ∧
    EigenMatrix.WellFormed boolLayout.width
      { rows := 2, cols := 2, data := [true, false, false, true], row_major := false } ∧
    (false = false) ∧
    writeEigenMatrixToFile_binary boolLayout
        { rows := 2, cols := 2, data := [true, false, false, true], row_major := false }
      = le_bytes 8 2 ++ le_bytes 8 2 ++ [true, false, false, true].flatMap boolLayout.encode ∧
    (writeEigenMatrixToFile_binary boolLayout
        { rows := 2, cols := 2, data := [true, false, false, true], row_major := false }).length
      = 16 + 2 * 2 * boolLayout.width ∧
    readEigenMatrixFromFile_binary boolLayout
        (writeEigenMatrixToFile_binary boolLayout
          { rows := 2, cols := 2, data := [true, false, false, true], row_major := false })
        { rows := 0, cols := 0, data := [], row_major := false }
      = .ok { rows := 2, cols := 2, data := [true, false, false, true], row_major := false } ∧
    ∀ result, readEigenMatrixFromFile_binary boolLayout
        (writeEigenMatrixToFile_binary boolLayout
          { rows := 2, cols := 2, data := [true, false, false, true], row_major := false })
        { rows := 0, cols := 0, data := [], row_major := false } = .ok result →
      result.rows = 2 ∧ result.cols = 2 ∧
      ∀ i j, result.coeff i j =
        EigenMatrix.coeff
          { rows := 2, cols := 2, data := [true, false, false, true], row_major := false } i j :=
  ⟨boolLayout_faithful,
    ⟨rfl, by norm_num, by norm_num, by norm_num, by norm_num [boolLayout]⟩, rfl,
    binary_write_then_read_gives_the_matrix boolLayout boolLayout_faithful
      { rows := 2, cols := 2, data := [true, false, false, true], row_major := false }
      { rows := 0, cols := 0, data := [], row_major := false }
      ⟨rfl, by norm_num, by norm_num, by norm_num, by norm_num [boolLayout]⟩ rfl⟩

end cilantro
